import Mathlib

/-!
Shallow embedding of the jcoder token core:

* the HMAC JWT engine (`sign` / `verify` and the shared JWT utilities:
  base64url codec, timespan parser, claim builders and validators),
* the refresh-token service (lifetime derivation, hashed-at-rest storage,
  validation against the revocation store, rotation), and
* the scrypt password hasher.

Modelling conventions:

* JavaScript strings are modelled as `List Char` (`JStr`); JavaScript string
  operations (`split`, `replace`, concatenation) become the corresponding
  list functions defined below.
* JSON values stored in JS objects are modelled by the inductive `JVal`;
  JS objects (JWT header and payload) are association lists `List (JStr × JVal)`
  with JS property read/write semantics (`jget` / `jset`).
* Node builtins that are external to the repository are parameters of the
  development, collected in `JwtEnv` / `RefreshEnv` / the scrypt argument:
  `JSON.stringify`/`JSON.parse` (as byte-level codecs), `crypto.createHmac`,
  `crypto.createHash("sha256")` and `crypto.scrypt` (all deterministic
  functions, which is the only property of them the code relies on).
  The base64 conversion of Node `Buffer` is modelled concretely, including
  its leniency (invalid characters are ignored, decoding never throws).
* Thrown exceptions become `Except JwtError`; `Date` values are carried as
  the integer argument the code constructed them from (seconds since epoch),
  and wall-clock reads (`Date.now()`, sqlite `datetime('now')`) become
  explicit parameters.
* Integer-valued JS numbers are modelled as `Int` (no floating point enters
  the claims under verification).
-/

/-- JavaScript strings, modelled as lists of characters. -/
abbrev JStr := List Char

/-- JSON/JS values as they occur in JWT headers and payloads. `undef` stands
for the JavaScript `undefined` value stored in an object property; an absent
property is modelled by `jget` returning `none`. Arrays occur in the engine
only as audience string arrays. -/
inductive JVal where
  | num (n : Int)
  | str (s : JStr)
  | vbool (b : Bool)
  | strArr (l : List JStr)
  | vnull
  | undef
deriving DecidableEq, Repr

/-- JS objects (JWT header / payload): association lists of properties. -/
abbrev JObj := List (JStr × JVal)

/-- JWT payloads are open JS objects. -/
abbrev JwtPayload := JObj

/-- JWT headers are open JS objects. -/
abbrev JwtHeader := JObj

/-- Property read, `obj[k]`: first binding of `k`, `none` when absent. -/
def jget (k : JStr) : JObj → Option JVal
  | [] => none
  | (k', v) :: rest => if k' = k then some v else jget k rest

/-- Property write, `obj[k] = v`: replace the (first) binding of `k` in place,
or append a fresh binding when `k` is absent. -/
def jset (k : JStr) (v : JVal) : JObj → JObj
  | [] => [(k, v)]
  | (k', v') :: rest => if k' = k then (k, v) :: rest else (k', v') :: jset k v rest

/-- `Object.assign(target, src)`: write every property of `src` onto `target`,
in order. -/
def objAssign (target : JObj) (src : JObj) : JObj :=
  src.foldl (fun acc kv => jset kv.1 kv.2 acc) target

/-- The error family of the JWT utilities (`JsonWebTokenError`,
`TokenExpiredError`, `NotBeforeError`), plus the `TypeError` thrown by
`parseTimespan` and the plain `Error` thrown on missing configuration.
`TokenExpiredError.expiredAt` and `NotBeforeError.date` are `Date`s built as
`new Date(seconds * 1000)`; we carry the `seconds` value. -/
inductive JwtError where
  | jsonWebToken (msg : JStr)
  | tokenExpired (msg : JStr) (expiredAtSecs : Int)
  | notBeforeE (msg : JStr) (dateSecs : Int)
  | typeError (msg : JStr)
  | otherError (msg : JStr)
deriving DecidableEq, Repr

/-- The `expiresIn` / `notBefore` / `maxAge` option values: `number | string`. -/
inductive TsIn where
  | num (n : Int)
  | str (s : JStr)
deriving DecidableEq, Repr

/-- JS truthiness of a `number | string` value (`NaN` does not arise:
the embedded code never produces one). -/
def truthyTs : TsIn → Bool
  | .num n => n ≠ 0
  | .str s => s ≠ []

/-- A `string | string[]` option value (issuer / audience options, and the
payload `aud` as supplied through options). -/
inductive StrOrList where
  | one (s : JStr)
  | many (l : List JStr)
deriving DecidableEq, Repr

/-- JS truthiness of a `string | string[]` value: a string is truthy iff
non-empty, an array is always truthy. -/
def truthySL : StrOrList → Bool
  | .one s => s ≠ []
  | .many _ => true

/-- Normalisation `Array.isArray(x) ? x : [x]` for a `string | string[]`. -/
def slToList : StrOrList → List JStr
  | .one s => [s]
  | .many l => l

/-- The JVal stored when a `string | string[]` option is written into the
payload (`payloadCopy.aud = options.audience`). -/
def slToJVal : StrOrList → JVal
  | .one s => .str s
  | .many l => .strArr l

/-- Decimal digit characters. -/
def digitChar : Nat → Char
  | 0 => '0' | 1 => '1' | 2 => '2' | 3 => '3' | 4 => '4'
  | 5 => '5' | 6 => '6' | 7 => '7' | 8 => '8' | _ => '9'

/-- Numeric value of a decimal digit character (used by `parseInt`). -/
def charDigitVal (c : Char) : Nat := c.toNat - 48

/-- `parseInt(s, 10)` on an all-digit string. -/
def digitsToNat (s : JStr) : Nat :=
  s.foldl (fun a c => 10 * a + charDigitVal c) 0

/-- Big-endian decimal digits of `n`, with explicit fuel (any fuel of at
least `n` computes all digits). -/
def natDigitsAux : Nat → Nat → JStr
  | 0, _ => []
  | fuel + 1, n =>
    if n = 0 then [] else natDigitsAux fuel (n / 10) ++ [digitChar (n % 10)]

/-- Rendering of a non-negative integer by JS string interpolation. -/
def natToJStr (n : Nat) : JStr :=
  if n = 0 then ['0'] else natDigitsAux n n

/-- Seconds multiplier of a timespan unit character. -/
def unitMul (u : Char) : Int :=
  if u = 's' then 1
  else if u = 'm' then 60
  else if u = 'h' then 60 * 60
  else 60 * 60 * 24

/-- The regex `^(\d+)([smhd])$`: digits (at least one) followed by exactly one
unit character. Returns the parsed amount and the unit. -/
def tsMatch (s : JStr) : Option (Nat × Char) :=
  match s.getLast? with
  | none => none
  | some u =>
    if (u = 's' ∨ u = 'm' ∨ u = 'h' ∨ u = 'd') ∧
        s.dropLast ≠ [] ∧ s.dropLast.all Char.isDigit then
      some (digitsToNat s.dropLast, u)
    else none

/-- `parseTimespan` (src/unnamed/part_004, lines 34-60): a `number` is returned
as-is; a digit-only string is `parseInt`ed; `"<digits><unit>"` with unit in
`{s,m,h,d}` is multiplied out; anything else throws
`TypeError("Invalid timespan format: " + value)`. -/
def parseTimespan : TsIn → Except JwtError Int
  | .num n => .ok n
  | .str s =>
    if s ≠ [] ∧ s.all Char.isDigit then .ok (digitsToNat s)
    else
      match tsMatch s with
      | some (amount, u) => .ok ((amount : Int) * unitMul u)
      | none => .error (.typeError (("Invalid timespan format: ").toList ++ s))

/-- `str.split(sep)` for a single-character separator. -/
def splitOn (sep : Char) : JStr → List JStr
  | [] => [[]]
  | c :: rest =>
    if c = sep then [] :: splitOn sep rest
    else
      match splitOn sep rest with
      | [] => [[c]]
      | s :: ss => (c :: s) :: ss

/-! ### The Node `Buffer` base64 codec

`Buffer.toString("base64")` and `Buffer.from(s, "base64")`. Encoding produces
standard base64 with `=` padding. Node's decoder never throws: characters
outside the base64 alphabet are skipped, `=` ends the data, and a trailing
lone 6-bit group is dropped. Bytes are `Nat`s; where byte-validity (`< 256`)
matters it appears as a hypothesis. -/

/-- The standard base64 alphabet. -/
def b64Alphabet : JStr :=
  ("ABCDEFGHIJKLMNOPQRSTUVWXYZabcdefghijklmnopqrstuvwxyz0123456789+/").toList

/-- Character for a 6-bit group. -/
def sixToChar (n : Nat) : Char := b64Alphabet.getD n '/'

/-- 6-bit value of an alphabet character (`none` outside the alphabet). -/
def charToSix (c : Char) : Option Nat :=
  if 'A' ≤ c ∧ c ≤ 'Z' then some (c.toNat - 65)
  else if 'a' ≤ c ∧ c ≤ 'z' then some (c.toNat - 97 + 26)
  else if '0' ≤ c ∧ c ≤ '9' then some (c.toNat - 48 + 52)
  else if c = '+' then some 62
  else if c = '/' then some 63
  else none

/-- Standard base64 encoding of a byte list, three bytes per four characters,
with `=` padding. -/
def b64EncodeGroups : List Nat → JStr
  | [] => []
  | [b0] => [sixToChar (b0 / 4), sixToChar (b0 % 4 * 16), '=', '=']
  | [b0, b1] => [sixToChar (b0 / 4), sixToChar (b0 % 4 * 16 + b1 / 16),
                 sixToChar (b1 % 16 * 4), '=']
  | b0 :: b1 :: b2 :: rest =>
    sixToChar (b0 / 4) :: sixToChar (b0 % 4 * 16 + b1 / 16) ::
    sixToChar (b1 % 16 * 4 + b2 / 64) :: sixToChar (b2 % 64) ::
    b64EncodeGroups rest

/-- Reassembling bytes from 6-bit groups; a trailing lone group is dropped. -/
def decodeSixes : List Nat → List Nat
  | v0 :: v1 :: v2 :: v3 :: rest =>
    (v0 * 4 + v1 / 16) :: (v1 % 16 * 16 + v2 / 4) :: (v2 % 4 * 64 + v3) ::
    decodeSixes rest
  | [v0, v1, v2] => [v0 * 4 + v1 / 16, v1 % 16 * 16 + v2 / 4]
  | [v0, v1] => [v0 * 4 + v1 / 16]
  | _ => []

/-- Node's lenient base64 decoding: data ends at the first `=`, characters
outside the alphabet are ignored, and no error is ever raised. -/
def nodeB64Decode (s : JStr) : List Nat :=
  decodeSixes ((s.takeWhile (· ≠ '=')).filterMap charToSix)

/-- `base64urlEncode` (src/unnamed/part_004, lines 8-14): standard base64,
then strip `=`, `+` → `-`, `/` → `_`. -/
def base64urlEncode (buffer : List Nat) : JStr :=
  (((b64EncodeGroups buffer).filter (· ≠ '=')).map
      (fun c => if c = '+' then '-' else c)).map
    (fun c => if c = '/' then '_' else c)

/-- `base64urlDecode` (src/unnamed/part_004, lines 19-26): `-` → `+`,
`_` → `/`, re-pad to a multiple of 4 with `=`, then `Buffer.from(_, "base64")`.
Total: the underlying Node decoder never throws. -/
def base64urlDecode (str : JStr) : List Nat :=
  let base64 := (str.map (fun c => if c = '-' then '+' else c)).map
    (fun c => if c = '_' then '/' else c)
  let pad := 4 - base64.length % 4
  let padded := if pad ≠ 4 then base64 ++ List.replicate pad '=' else base64
  nodeB64Decode padded

/-! ### The HMAC JWT engine (src/unnamed/part_003 and part_004) -/

/-- The supported algorithm identifiers (`SUPPORTED_ALGS` keys). -/
inductive HmacAlg where
  | HS256 | HS384 | HS512
deriving DecidableEq, Repr

/-- The JWT name of an algorithm. -/
def algStr : HmacAlg → JStr
  | .HS256 => ("HS256").toList
  | .HS384 => ("HS384").toList
  | .HS512 => ("HS512").toList

/-- `SUPPORTED_ALGS[alg]`: map a header `alg` string to the Node crypto hash
name, `none` for unsupported algorithms. -/
def nodeAlgOf (a : JStr) : Option JStr :=
  if a = ("HS256").toList then some (("sha256").toList)
  else if a = ("HS384").toList then some (("sha384").toList)
  else if a = ("HS512").toList then some (("sha512").toList)
  else none

/-- Message text of a JVal when concatenated into an error string. Only
string-valued `alg` headers reach the claims below; the other renderings
follow JS string coercion. -/
def jvalText : Option JVal → JStr
  | some (.str s) => s
  | some (.num n) => if 0 ≤ n then natToJStr n.toNat else '-' :: natToJStr (-n).toNat
  | some (.vbool true) => ("true").toList
  | some (.vbool false) => ("false").toList
  | some .vnull => ("null").toList
  | some .undef => ("undefined").toList
  | some (.strArr _) => []
  | none => ("undefined").toList

/-- `SignOptions` of the HMAC engine. `header` is the caller-supplied extra
header object. -/
structure SignOptions where
  algorithm : Option HmacAlg := none
  expiresIn : Option TsIn := none
  notBefore : Option TsIn := none
  issuer : Option JStr := none
  subject : Option JStr := none
  audience : Option StrOrList := none
  jwtid : Option JStr := none
  noTimestamp : Bool := false
  header : Option JObj := none
  keyid : Option JStr := none
  clockTimestamp : Option Int := none

/-- `VerifyOptions` of the HMAC engine. -/
structure VerifyOptions where
  algorithms : Option (List HmacAlg) := none
  issuer : Option StrOrList := none
  subject : Option JStr := none
  audience : Option StrOrList := none
  clockTimestamp : Option Int := none
  clockTolerance : Option Int := none
  maxAge : Option TsIn := none

/-- The Node builtins the engine calls, as deterministic parameters:
the JSON codec composed with UTF-8 `Buffer` conversion (header and payload
sides), and `crypto.createHmac(nodeAlg, secret).update(input).digest()`. -/
structure JwtEnv where
  jsonHeaderBytes : JwtHeader → List Nat
  parseHeaderBytes : List Nat → Except JwtError JwtHeader
  jsonPayloadBytes : JwtPayload → List Nat
  parsePayloadBytes : List Nat → Except JwtError JwtPayload
  hmacBytes : JStr → JStr → JStr → List Nat

/-- `buildHeader(algorithm, options)` (part_004, lines 280-297):
`{alg, typ:"JWT"}` merged with `options.header`, then `kid` from a truthy
`options.keyid`. -/
def buildHeader (algorithm : HmacAlg) (o : SignOptions) : JwtHeader :=
  let base : JwtHeader :=
    [(("alg").toList, JVal.str (algStr algorithm)),
     (("typ").toList, JVal.str (("JWT").toList))]
  let h := objAssign base (o.header.getD [])
  match o.keyid with
  | some k => if k ≠ [] then jset (("kid").toList) (.str k) h else h
  | none => h

/-- `buildPayload(payload, options)` (part_004, lines 237-275): shallow-copy,
overlay truthy `iss/sub/aud/jti` options, default `iat` to `now`, then
`exp`/`nbf` from truthy `expiresIn`/`notBefore` via `parseTimespan` (which may
throw). `wallNow` is the `Math.floor(Date.now() / 1000)` read. -/
def buildPayload (wallNow : Int) (payload : JwtPayload) (o : SignOptions) :
    Except JwtError JwtPayload := do
  let now := o.clockTimestamp.getD wallNow
  let pc := payload
  let pc := match o.issuer with
    | some s => if s ≠ [] then jset (("iss").toList) (.str s) pc else pc
    | none => pc
  let pc := match o.subject with
    | some s => if s ≠ [] then jset (("sub").toList) (.str s) pc else pc
    | none => pc
  let pc := match o.audience with
    | some a => if truthySL a then jset (("aud").toList) (slToJVal a) pc else pc
    | none => pc
  let pc := match o.jwtid with
    | some s => if s ≠ [] then jset (("jti").toList) (.str s) pc else pc
    | none => pc
  let pc := if ¬ o.noTimestamp ∧ jget (("iat").toList) pc = none then
      jset (("iat").toList) (.num now) pc
    else pc
  let pc ← match o.expiresIn with
    | some ts =>
      if truthyTs ts then do
        let d ← parseTimespan ts
        pure (jset (("exp").toList) (.num (now + d)) pc)
      else pure pc
    | none => pure pc
  let pc ← match o.notBefore with
    | some ts =>
      if truthyTs ts then do
        let d ← parseTimespan ts
        pure (jset (("nbf").toList) (.num (now + d)) pc)
      else pure pc
    | none => pure pc
  return pc

/-- `validateTimeClaims(payload, options)` (part_004, lines 159-200): `nbf`,
`exp` and `maxAge` checks against `now = options.clockTimestamp ?? wall clock`
and `tolerance = options.clockTolerance || 0`. -/
def validateTimeClaims (wallNow : Int) (payload : JwtPayload)
    (o : VerifyOptions) : Except JwtError Unit := do
  let now := o.clockTimestamp.getD wallNow
  let tolerance := o.clockTolerance.getD 0
  match jget (("nbf").toList) payload with
  | none => pure ()
  | some (.num nbf) =>
    if now + tolerance < nbf then
      throw (.notBeforeE (("jwt not active").toList) nbf)
    else pure ()
  | some _ => throw (.jsonWebToken (("Invalid nbf").toList))
  match jget (("exp").toList) payload with
  | none => pure ()
  | some (.num e) =>
    if now - tolerance ≥ e then
      throw (.tokenExpired (("jwt expired").toList) e)
    else pure ()
  | some _ => throw (.jsonWebToken (("Invalid exp").toList))
  match o.maxAge with
  | some ma =>
    if truthyTs ma then
      match jget (("iat").toList) payload with
      | some (.num iat) => do
        let maxAgeSeconds ← parseTimespan ma
        if now - iat > maxAgeSeconds + tolerance then
          throw (.tokenExpired (("maxAge exceeded").toList) (iat + maxAgeSeconds))
        else pure ()
      | _ => throw (.jsonWebToken (("iat required when using maxAge").toList))
    else pure ()
  | none => pure ()

/-- `validateStandardClaims(payload, options)` (part_004, lines 205-232):
issuer / subject / audience checks. A non-string payload `iss` never matches
(`Array.includes` uses strict equality), subject uses strict equality, and
audience requires a non-empty intersection. -/
def validateStandardClaims (payload : JwtPayload) (o : VerifyOptions) :
    Except JwtError Unit := do
  match o.issuer with
  | some iss =>
    if truthySL iss then
      let validIssuers := slToList iss
      match jget (("iss").toList) payload with
      | some (.str s) =>
        if s ∈ validIssuers then pure ()
        else throw (.jsonWebToken (("invalid issuer").toList))
      | _ => throw (.jsonWebToken (("invalid issuer").toList))
    else pure ()
  | none => pure ()
  match o.subject with
  | some sub =>
    if sub ≠ [] then
      if jget (("sub").toList) payload = some (.str sub) then pure ()
      else throw (.jsonWebToken (("invalid subject").toList))
    else pure ()
  | none => pure ()
  match o.audience with
  | some audOption =>
    if truthySL audOption then
      let validAudiences := slToList audOption
      let target : List (Option JStr) := match jget (("aud").toList) payload with
        | some (.strArr l) => l.map some
        | some (.str s) => [some s]
        | _ => [none]
      if target.any (fun a => match a with
          | some s => s ∈ validAudiences
          | none => false) then pure ()
      else throw (.jsonWebToken (("invalid audience").toList))
    else pure ()
  | none => pure ()

/-- `createSignature(alg, secret, signingInput)` (part_003, lines 83-97):
look up the Node hash name, HMAC, base64url-encode the digest. -/
def createSignature (E : JwtEnv) (alg : JStr) (secret : JStr)
    (signingInput : JStr) : Except JwtError JStr :=
  match nodeAlgOf alg with
  | none => .error (.jsonWebToken (("Unsupported algorithm: ").toList ++ alg))
  | some nodeAlg => .ok (base64urlEncode (E.hmacBytes nodeAlg secret signingInput))

/-- `timingSafeEqualStr` (part_003, lines 102-115): semantically, byte
equality of the two strings (the constant-time execution profile is not
modelled). -/
def timingSafeEqualStr (a b : JStr) : Bool := a = b

/-- `parseJwtToken(token)` (part_004, lines 302-334): split on `.`, require
exactly three segments, base64url-decode and JSON-parse header and payload. -/
def parseJwtToken (E : JwtEnv) (token : JStr) :
    Except JwtError (JStr × JStr × JStr × JwtHeader × JwtPayload) :=
  match splitOn '.' token with
  | [encodedHeader, encodedPayload, signature] => do
    let header ← E.parseHeaderBytes (base64urlDecode encodedHeader)
    let payload ← E.parsePayloadBytes (base64urlDecode encodedPayload)
    pure (encodedHeader, encodedPayload, signature, header, payload)
  | _ => .error (.jsonWebToken (("JWT malformed").toList))

/-- `sign(payload, secret, options)` (part_003, lines 120-148). -/
def sign (E : JwtEnv) (wallNow : Int) (payload : JwtPayload) (secret : JStr)
    (options : SignOptions) : Except JwtError JStr := do
  if secret = [] then
    throw (.jsonWebToken (("Secret is required for HMAC signing").toList))
  else pure ()
  let algorithm := options.algorithm.getD .HS256
  let header := buildHeader algorithm options
  let payloadCopy ← buildPayload wallNow payload options
  let encodedHeader := base64urlEncode (E.jsonHeaderBytes header)
  let encodedPayload := base64urlEncode (E.jsonPayloadBytes payloadCopy)
  let signingInput := encodedHeader ++ '.' :: encodedPayload
  let signature ← createSignature E (algStr algorithm) secret signingInput
  return signingInput ++ '.' :: signature

/-- `verify(token, secret, options)` (part_003, lines 153-186): parse, check
the declared algorithm is supported and (when `options.algorithms` is given,
an always-applied check since any array, even empty, is truthy in JS) in the
allow-list, recompute and compare the signature over the literal segments,
then validate time and standard claims. -/
def verify (E : JwtEnv) (wallNow : Int) (token : JStr) (secret : JStr)
    (options : VerifyOptions) : Except JwtError JwtPayload := do
  if secret = [] then
    throw (.jsonWebToken (("Secret is required for HMAC verification").toList))
  else pure ()
  let (encodedHeader, encodedPayload, signature, header, payload) ←
    parseJwtToken E token
  let algJ := jget (("alg").toList) header
  match algJ with
  | some (.str a) =>
    if (nodeAlgOf a).isNone then
      throw (.jsonWebToken (("Unsupported algorithm: ").toList ++ a))
    else pure ()
    match options.algorithms with
    | some l =>
      if a ∈ l.map algStr then pure ()
      else throw (.jsonWebToken (("Invalid algorithm: ").toList ++ a))
    | none => pure ()
    let signingInput := encodedHeader ++ '.' :: encodedPayload
    let expectedSig ← createSignature E a secret signingInput
    if ¬ timingSafeEqualStr expectedSig signature then
      throw (.jsonWebToken (("Invalid signature").toList))
    else pure ()
    validateTimeClaims wallNow payload options
    validateStandardClaims payload options
    return payload
  | _ => throw (.jsonWebToken (("Unsupported algorithm: ").toList ++ jvalText algJ))

/-! ### Calendar time for the refresh-token store (src/unnamed/part_005)

`storeRefreshToken` persists `new Date()` advanced by `setDate(getDate()+n)`
and rendered by `toISOString()`; the store query compares that string against
sqlite `datetime('now')` text with sqlite's binary (byte-wise) string order.
The process runs with `TZ=UTC`, so `setDate` day arithmetic and the UTC
rendering agree. -/

/-- A UTC calendar instant, as carried by a JS `Date`. -/
structure DateTime where
  year : Nat
  month : Nat
  day : Nat
  hour : Nat
  minute : Nat
  second : Nat
  ms : Nat
deriving DecidableEq, Repr

/-- Days in a month of the proleptic Gregorian calendar. -/
def daysInMonth (y m : Nat) : Nat :=
  if m = 2 then
    if y % 4 = 0 ∧ (y % 100 ≠ 0 ∨ y % 400 = 0) then 29 else 28
  else if m = 4 ∨ m = 6 ∨ m = 9 ∨ m = 11 then 30
  else 31

/-- Calendar validity of a `DateTime`. -/
def DateTime.valid (d : DateTime) : Prop :=
  1 ≤ d.month ∧ d.month ≤ 12 ∧ 1 ≤ d.day ∧ d.day ≤ daysInMonth d.year d.month ∧
  d.hour < 24 ∧ d.minute < 60 ∧ d.second < 60 ∧ d.ms < 1000

instance (d : DateTime) : Decidable d.valid := by
  unfold DateTime.valid; infer_instance

/-- One day forward (`setDate(getDate() + 1)` rollover). -/
def DateTime.addOneDay (d : DateTime) : DateTime :=
  if d.day < daysInMonth d.year d.month then
    { d with day := d.day + 1 }
  else if d.month < 12 then
    { d with month := d.month + 1, day := 1 }
  else
    { d with year := d.year + 1, month := 1, day := 1 }

/-- `setDate(getDate() + n)` for `n ≥ 0`. -/
def DateTime.addDays (d : DateTime) : Nat → DateTime
  | 0 => d
  | n + 1 => (d.addDays n).addOneDay

/-- Strict order on the calendar dates only (lexicographic). -/
def DateTime.dateLt (a b : DateTime) : Prop :=
  a.year < b.year ∨ (a.year = b.year ∧
    (a.month < b.month ∨ (a.month = b.month ∧ a.day < b.day)))

/-- Chronological strict order on instants (lexicographic). -/
def DateTime.instLt (a b : DateTime) : Prop :=
  a.dateLt b ∨ (a.year = b.year ∧ a.month = b.month ∧ a.day = b.day ∧
    (a.hour < b.hour ∨ (a.hour = b.hour ∧
      (a.minute < b.minute ∨ (a.minute = b.minute ∧
        (a.second < b.second ∨ (a.second = b.second ∧ a.ms < b.ms)))))))

instance (a b : DateTime) : Decidable (a.dateLt b) := by
  unfold DateTime.dateLt; infer_instance

instance (a b : DateTime) : Decidable (a.instLt b) := by
  unfold DateTime.instLt; infer_instance

/-- `L`-digit zero-padded big-endian decimal rendering. -/
def padN : Nat → Nat → JStr
  | 0, _ => []
  | l + 1, y => digitChar (y / 10 ^ l % 10) :: padN l y

/-- Two-digit zero-padded decimal rendering. -/
def pad2 (n : Nat) : JStr := padN 2 n

/-- Three-digit zero-padded decimal rendering. -/
def pad3 (n : Nat) : JStr := padN 3 n

/-- Four-digit zero-padded decimal rendering. -/
def pad4 (n : Nat) : JStr := padN 4 n

/-- The 10-character `YYYY-MM-DD` prefix shared by both renderings. -/
def dateStr (d : DateTime) : JStr :=
  pad4 d.year ++ [ '-'] ++ pad2 d.month ++ [ '-'] ++ pad2 d.day

/-- `Date.toISOString()`: `YYYY-MM-DDTHH:MM:SS.mmmZ`. -/
def toISOString (d : DateTime) : JStr :=
  dateStr d ++ [ 'T'] ++ pad2 d.hour ++ [ ':'] ++ pad2 d.minute ++ [ ':'] ++
    pad2 d.second ++ [ '.'] ++ pad3 d.ms ++ [ 'Z']

/-- sqlite `datetime('now')`: `YYYY-MM-DD HH:MM:SS`. -/
def sqliteNowStr (d : DateTime) : JStr :=
  dateStr d ++ [ ' '] ++ pad2 d.hour ++ [ ':'] ++ pad2 d.minute ++ [ ':'] ++
    pad2 d.second

/-- sqlite BINARY text collation: byte-wise (here character-code) strict
less-than; a proper prefix is smaller. -/
def strLtB : JStr → JStr → Bool
  | [], [] => false
  | [], _ :: _ => true
  | _ :: _, [] => false
  | a :: as, b :: bs =>
    if a.toNat < b.toNat then true
    else if b.toNat < a.toNat then false
    else strLtB as bs

/-- `x > y` in a sqlite WHERE clause over TEXT values. -/
def strGtB (a b : JStr) : Bool := strLtB b a

/-! ### The refresh-token service (src/unnamed/part_005) -/

/-- A row of the `refresh_tokens` table. `expiresAt`/`createdAt` hold the TEXT
actually stored (the `toISOString()` rendering). -/
structure TokenRecord where
  userId : Int
  tokenHash : JStr
  expiresAt : JStr
  createdAt : JStr
deriving DecidableEq, Repr

/-- The revocation store: rows in insertion order. `.get` takes the first
matching row, `INSERT` appends, `DELETE` filters. -/
abbrev TokenStore := List TokenRecord

/-- External collaborators of the service: the JWT engine environment, the
`crypto.createHash('sha256').update(t).digest('hex')` digest, and the
`REFRESH_TOKEN_SECRET` environment variable. -/
structure RefreshEnv where
  jwt : JwtEnv
  sha256hex : JStr → JStr
  refreshSecret : JStr

/-- `parseExpiresIn` of `jwtService`.

Modelled from the spec: `jwtService.ts` is not among the provided sources;
§4.4 states the access-token lifetime is parsed "via Codec's timespan
parser", i.e. `parseTimespan` applied to the lifetime string. -/
def parseExpiresIn (s : JStr) : Except JwtError Int :=
  parseTimespan (.str s)

/-- `calculateRefreshTokenExpiration(accessTokenExpiresIn)` (part_005, lines
10-27): parse, multiply by 30, floor at 1800 seconds, and re-render as whole
days / hours / minutes. -/
def calculateRefreshTokenExpiration (accessTokenExpiresIn : JStr) :
    Except JwtError JStr := do
  let accessTokenSeconds ← parseExpiresIn accessTokenExpiresIn
  let refreshTokenSeconds := accessTokenSeconds * 30
  let finalSeconds := max refreshTokenSeconds 1800
  if finalSeconds ≥ 86400 then
    let days := finalSeconds.toNat / 86400
    return natToJStr days ++ [ 'd']
  else if finalSeconds ≥ 3600 then
    let hours := finalSeconds.toNat / 3600
    return natToJStr hours ++ [ 'h']
  else
    let minutes := finalSeconds.toNat / 60
    return natToJStr minutes ++ [ 'm']

/-- The refresh JWT payload `{userId, username, type: 'refresh'}`. -/
def refreshPayload (userId : Int) (username : JVal) : JwtPayload :=
  [(("userId").toList, .num userId),
   (("username").toList, username),
   (("type").toList, .str (("refresh").toList))]

/-- The sign options of `generateRefreshToken`. -/
def refreshSignOptions (expiration : JStr) : SignOptions :=
  { algorithm := some .HS256,
    expiresIn := some (.str expiration),
    issuer := ("jcoder-refresh").toList }

/-- `generateRefreshToken(userId, username, accessTokenExpiresIn)` (part_005,
lines 32-53). `JwtService.signWithCustomSecret` is modelled from the spec
(§4.4 `issue`): `jwtService.ts` is not among the provided sources, and the
spec describes the refresh token as "itself a Token Engine instance under a
distinct secret", i.e. engine `sign` under `REFRESH_TOKEN_SECRET`. -/
def generateRefreshToken (R : RefreshEnv) (wallNow : Int) (userId : Int)
    (username : JVal) (accessTokenExpiresIn : JStr) : Except JwtError JStr := do
  if R.refreshSecret = [] then
    throw (.otherError (("REFRESH_TOKEN_SECRET environment variable is required").toList))
  else pure ()
  let refreshTokenExpiration ← calculateRefreshTokenExpiration accessTokenExpiresIn
  sign R.jwt wallNow (refreshPayload userId username) R.refreshSecret
    (refreshSignOptions refreshTokenExpiration)

/-- `hashRefreshToken(token)` (part_005, lines 58-60). -/
def hashRefreshToken (R : RefreshEnv) (token : JStr) : JStr :=
  R.sha256hex token

/-- `storeRefreshToken(userId, token, expiresInDays)` (part_005, lines 65-76):
INSERT a row with `expiresAt = now + expiresInDays` days, ISO-rendered. -/
def storeRefreshToken (R : RefreshEnv) (nowDT : DateTime) (store : TokenStore)
    (userId : Int) (token : JStr) (expiresInDays : Nat) : TokenStore :=
  store ++ [{ userId := userId,
              tokenHash := hashRefreshToken R token,
              expiresAt := toISOString (nowDT.addDays expiresInDays),
              createdAt := toISOString nowDT }]

/-- The row filter of the `validateRefreshToken` SELECT:
`token_hash = ? AND expires_at > datetime('now')`. -/
def validRowFor (hash : JStr) (nowDT : DateTime) (r : TokenRecord) : Bool :=
  r.tokenHash = hash ∧ strGtB r.expiresAt (sqliteNowStr nowDT)

/-- `validateRefreshToken(token)` (part_005, lines 81-111): verify the JWT
under the refresh secret (any thrown error is caught and becomes `null`),
require `payload.type === 'refresh'`, look up the first not-yet-expired row
with the token's hash, and cross-check its `user_id` against the payload.
`JwtService.verifyWithCustomSecret` is modelled from the spec (§4.4
`validate`): engine `verify` under the refresh secret with default options.
Returns `(userId, payload.username)` on success. -/
def validateRefreshToken (R : RefreshEnv) (wallNow : Int) (nowDT : DateTime)
    (store : TokenStore) (token : JStr) : Option (Int × Option JVal) :=
  if R.refreshSecret = [] then none
  else
    match verify R.jwt wallNow token R.refreshSecret {} with
    | .error _ => none
    | .ok payload =>
      if jget (("type").toList) payload ≠ some (.str (("refresh").toList)) then
        none
      else
        let tokenHash := hashRefreshToken R token
        match store.find? (validRowFor tokenHash nowDT) with
        | none => none
        | some r =>
          if jget (("userId").toList) payload = some (.num r.userId) then
            some (r.userId, jget (("username").toList) payload)
          else none

/-- `revokeRefreshToken(token)` (part_005, lines 116-125): DELETE by hash;
returns the store and whether any row was deleted. -/
def revokeRefreshToken (R : RefreshEnv) (store : TokenStore) (token : JStr) :
    TokenStore × Bool :=
  let tokenHash := hashRefreshToken R token
  (store.filter (fun r => ¬ r.tokenHash = tokenHash),
   store.any (fun r => r.tokenHash = tokenHash))

/-- `cleanupExpiredTokens()` (part_005, lines 142-149): DELETE all rows with
`expires_at <= datetime('now')`; returns the store and the deleted count. -/
def cleanupExpiredTokens (nowDT : DateTime) (store : TokenStore) :
    TokenStore × Nat :=
  (store.filter (fun r => strGtB r.expiresAt (sqliteNowStr nowDT)),
   (store.filter (fun r => ¬ strGtB r.expiresAt (sqliteNowStr nowDT))).length)

/-- `rotateRefreshToken(oldToken, userId, accessTokenExpiresIn)` (part_005,
lines 154-171): validate the old token and check ownership (else `null`),
delete the old row, issue a new refresh token, persist it with
`ceil(refreshSeconds / 86400)` days, and return it with the updated store. -/
def rotateRefreshToken (R : RefreshEnv) (wallNow : Int) (nowDT : DateTime)
    (store : TokenStore) (oldToken : JStr) (userId : Int)
    (accessTokenExpiresIn : JStr) :
    Except JwtError (Option (JStr × TokenStore)) := do
  match validateRefreshToken R wallNow nowDT store oldToken with
  | none => return none
  | some (uid, username) =>
    if uid ≠ userId then
      return none
    else
      let store1 := (revokeRefreshToken R store oldToken).1
      let newToken ← generateRefreshToken R wallNow userId
        (username.getD .undef) accessTokenExpiresIn
      let refreshExpiration ← calculateRefreshTokenExpiration accessTokenExpiresIn
      let expirationSeconds ← parseExpiresIn refreshExpiration
      let expirationDays := (expirationSeconds.toNat + 86399) / 86400
      let store2 := storeRefreshToken R nowDT store1 userId newToken expirationDays
      return some (newToken, store2)

/-! ### The password hasher (src/src/security/password.ts) -/

/-- Lowercase hex rendering of a nibble. -/
def hexDigit (n : Nat) : Char :=
  if n < 10 then digitChar n
  else if n = 10 then 'a'
  else if n = 11 then 'b'
  else if n = 12 then 'c'
  else if n = 13 then 'd'
  else if n = 14 then 'e'
  else 'f'

/-- `Buffer.toString("hex")`: two lowercase hex digits per byte. -/
def bytesToHex (bs : List Nat) : JStr :=
  (bs.map (fun b => [hexDigit (b / 16 % 16), hexDigit (b % 16)])).flatten

/-- Value of a hex digit character, either case (`none` otherwise). -/
def hexVal (c : Char) : Option Nat :=
  if '0' ≤ c ∧ c ≤ '9' then some (c.toNat - 48)
  else if 'a' ≤ c ∧ c ≤ 'f' then some (c.toNat - 97 + 10)
  else if 'A' ≤ c ∧ c ≤ 'F' then some (c.toNat - 65 + 10)
  else none

/-- `Buffer.from(s, "hex")`: consume hex-digit pairs, stopping (without an
error) at the first invalid pair or lone trailing digit. -/
def hexParse : JStr → List Nat
  | c1 :: c2 :: rest =>
    match hexVal c1, hexVal c2 with
    | some h, some l => (16 * h + l) :: hexParse rest
    | _, _ => []
  | _ => []

/-- `SCRYPT_KEYLEN`. -/
def SCRYPT_KEYLEN : Nat := 64

/-- `hashPassword(password)` (password.ts, lines 9-18): derive a
`SCRYPT_KEYLEN`-byte key from the password and a fresh random 16-byte salt,
and store `hex(salt) + ":" + hex(key)`. `crypto.scrypt` is the deterministic
parameter `scryptF` (password, hex salt, key length ↦ derived key bytes);
the random salt bytes are the explicit `saltBytes` argument. -/
def hashPassword (scryptF : JStr → JStr → Nat → List Nat)
    (saltBytes : List Nat) (password : JStr) : JStr :=
  let salt := bytesToHex saltBytes
  let hash := bytesToHex (scryptF password salt SCRYPT_KEYLEN)
  salt ++ ':' :: hash

/-- `verifyPassword(password, stored)` (password.ts, lines 23-41): split the
stored value on `:`; a missing or empty half is `false`; re-derive with the
stored salt and compare the key bytes (length mismatch is `false`). -/
def verifyPassword (scryptF : JStr → JStr → Nat → List Nat)
    (password : JStr) (stored : JStr) : Bool :=
  let parts := splitOn ':' stored
  let salt := parts.getD 0 []
  let hash := parts.getD 1 []
  if salt = [] ∨ hash = [] then false
  else
    let derivedKey := scryptF password salt SCRYPT_KEYLEN
    let hashBuf := hexParse hash
    if hashBuf.length ≠ derivedKey.length then false
    else hashBuf = derivedKey

/-! ### Helper definitions for the proofs and concrete witness data -/

/-- The non-padding characters of `b64EncodeGroups` (what survives the
`replace(/=/g, "")` of `base64urlEncode`). -/
def b64Body : List Nat → JStr
  | [] => []
  | [b0] => [sixToChar (b0 / 4), sixToChar (b0 % 4 * 16)]
  | [b0, b1] => [sixToChar (b0 / 4), sixToChar (b0 % 4 * 16 + b1 / 16),
                 sixToChar (b1 % 16 * 4)]
  | b0 :: b1 :: b2 :: rest =>
    sixToChar (b0 / 4) :: sixToChar (b0 % 4 * 16 + b1 / 16) ::
    sixToChar (b1 % 16 * 4 + b2 / 64) :: sixToChar (b2 % 64) :: b64Body rest

/-- Composite of the two encode-side url replacements (`+`→`-` then `/`→`_`). -/
def urlE (c : Char) : Char :=
  if c = '+' then '-' else if c = '/' then '_' else c

/-- Composite of the two decode-side url replacements (`-`→`+` then `_`→`/`). -/
def urlD (c : Char) : Char :=
  if c = '-' then '+' else if c = '_' then '/' else c

/-- Node hash name of a supported algorithm. -/
def shaName : HmacAlg → JStr
  | .HS256 => ("sha256").toList
  | .HS384 => ("sha384").toList
  | .HS512 => ("sha512").toList

/-- The sign-option family of the round-trip claim: chosen algorithm,
truthy `expiresIn`, truthy issuer, injected clock. -/
def c1SignOpts (alg : HmacAlg) (ts : TsIn) (issuer : JStr) (now : Int) :
    SignOptions :=
  { algorithm := some alg, expiresIn := some ts, issuer := some issuer,
    clockTimestamp := some now }

/-- The verify-option family of the round-trip claim's scenario: allow-list
containing exactly the signing algorithm, the signing issuer, same clock. -/
def c1VerifyOpts (alg : HmacAlg) (issuer : JStr) (now : Int) : VerifyOptions :=
  { algorithms := some [alg], issuer := some (.one issuer),
    clockTimestamp := some now }

/-- The verify-option family of the round-trip claim's headline sentence:
`verify(token, secret)` with only the clock injected. -/
def c1PlainVerifyOpts (now : Int) : VerifyOptions :=
  { clockTimestamp := some now }

/-- Verify options for the expiry-boundary claim: injected clock,
`clockTolerance: 0`. -/
def c3Opts (t : Int) : VerifyOptions :=
  { clockTimestamp := some t, clockTolerance := some 0 }

/-- A constant concrete `JwtEnv`: the JSON codec maps every header to the
fixed byte `[1]` / back to `hdr`, every payload to `[0]` / back to `pc`, and
the HMAC digest is the fixed byte list `[2]`. Used to instantiate witnesses. -/
def constEnv (hdr : JwtHeader) (pc : JwtPayload) : JwtEnv :=
  { jsonHeaderBytes := fun _ => [1],
    parseHeaderBytes := fun _ => .ok hdr,
    jsonPayloadBytes := fun _ => [0],
    parsePayloadBytes := fun _ => .ok pc,
    hmacBytes := fun _ _ _ => [2] }

/-- A two-point concrete `JwtEnv` distinguishing payloads `pcA` and `pcB`. -/
def twoEnv (hdr : JwtHeader) (pcA pcB : JwtPayload) : JwtEnv :=
  { jsonHeaderBytes := fun _ => [1],
    parseHeaderBytes := fun _ => .ok hdr,
    jsonPayloadBytes := fun p => if p = pcA then [0] else [3],
    parsePayloadBytes := fun b => if b = [0] then .ok pcA else .ok pcB,
    hmacBytes := fun _ _ _ => [2] }

/-- The default JWT header `{alg: "HS256", typ: "JWT"}`. -/
def hs256Header : JwtHeader :=
  [(("alg").toList, JVal.str (("HS256").toList)),
   (("typ").toList, JVal.str (("JWT").toList))]

/-- Witness payload of the round-trip scenario: `{userId: 123}`. -/
def c1P : JwtPayload := [(("userId").toList, JVal.num 123)]

/-- The payload the scenario's sign produces:
`{userId: 123, iss: "svc", iat: 1000, exp: 4600}`. -/
def c1Pc : JwtPayload :=
  [(("userId").toList, JVal.num 123),
   (("iss").toList, JVal.str (("svc").toList)),
   (("iat").toList, JVal.num 1000),
   (("exp").toList, JVal.num 4600)]

/-- Witness environment of the round-trip scenario. -/
def c1Env : JwtEnv := constEnv hs256Header c1Pc

/-- The token the scenario's sign produces under `c1Env`:
`base64url [1] ++ "." ++ base64url [0] ++ "." ++ base64url [2]`. -/
def c1Tok : JStr := ("AQ.AA.Ag").toList

/-- Witness payload for the expiry-boundary claim: `{exp: 5}`. -/
def c3P : JwtPayload := [(("exp").toList, JVal.num 5)]

/-- Verify options of the algorithm-confusion witness: allow-list `["HS384"]`. -/
def c2WOpts : VerifyOptions := { algorithms := some [.HS384] }

/-- Verify options of the empty-allow-list witness: `algorithms: []`. -/
def c10WOpts : VerifyOptions := { algorithms := some [] }

/-- The scrypt instance of the password-hashing witness: a deterministic
key-derivation returning `keylen` copies of the byte 7. -/
def wScrypt : JStr → JStr → Nat → List Nat := fun _ _ k => List.replicate k 7

/-- The payload `buildPayload` produces for a refresh token issued at `w`
with parsed lifetime `d`. -/
def refreshBuiltPayload (w : Int) (userId : Int) (uv : JVal) (d : Int) :
    JwtPayload :=
  jset (("exp").toList) (.num (w + d))
    (jset (("iat").toList) (.num w)
      (jset (("iss").toList) (.str (("jcoder-refresh").toList))
        (refreshPayload userId uv)))

/-- The expired-record scenario: the refresh JWT payload the codec returns
(`type: "refresh"`, `userId: 1`, `exp: 100`). -/
def c4Pc : JwtPayload :=
  [(("type").toList, JVal.str (("refresh").toList)),
   (("userId").toList, JVal.num 1),
   (("exp").toList, JVal.num 100)]

/-- The expired-record scenario's JWT environment. -/
def c4Env : JwtEnv := constEnv hs256Header c4Pc

/-- The expired-record scenario's refresh environment: constant sha-256
digest `"H"`, refresh secret `"k"`. -/
def c4R : RefreshEnv :=
  { jwt := c4Env, sha256hex := fun _ => ("H").toList,
    refreshSecret := ("k").toList }

/-- The token of the expired-record scenario (the `c4Env` encoding). -/
def c4Tok : JStr := ("AQ.AA.Ag").toList

/-- The instant the stored record expired: 2026-01-01 00:00:00.000 UTC. -/
def c4ExpiryDT : DateTime := ⟨2026, 1, 1, 0, 0, 0, 0⟩

/-- The validation instant, one hour later: 2026-01-01 01:00:00.000 UTC. -/
def c4NowDT : DateTime := ⟨2026, 1, 1, 1, 0, 0, 0⟩

/-- The store holding one refresh-token record that expired at
`c4ExpiryDT` (persisted via `toISOString`). -/
def c4Store : TokenStore :=
  [{ userId := 1, tokenHash := ("H").toList,
     expiresAt := toISOString c4ExpiryDT,
     createdAt := toISOString c4ExpiryDT }]

/-- The rotation instant of the same-second rotation scenario. -/
def c5NowDT : DateTime := ⟨2026, 1, 1, 0, 0, 0, 0⟩

/-- The refresh payload of the same-second rotation scenario: issued at
second 0 with lifetime `"1d"` (86400 s). -/
def c5Pc : JwtPayload := refreshBuiltPayload 0 1 (.str (("u").toList)) 86400

/-- JWT environment of the same-second rotation scenario. -/
def c5Env : JwtEnv := constEnv hs256Header c5Pc

/-- Refresh environment of the same-second rotation scenario. -/
def c5R : RefreshEnv :=
  { jwt := c5Env, sha256hex := fun _ => ("H").toList,
    refreshSecret := ("k").toList }

/-- The token of the same-second rotation scenario: both the old token and
the one the rotation re-issues in the same second. -/
def c5Tok : JStr := ("AQ.AA.Ag").toList

/-- Store before the same-second rotation: the old token's record. -/
def c5Store : TokenStore :=
  [{ userId := 1, tokenHash := ("H").toList,
     expiresAt := toISOString (c5NowDT.addDays 1),
     createdAt := toISOString c5NowDT }]

/-- Store after the same-second rotation: the re-issued token's record,
hashing identically to the old token. -/
def c5Store2 : TokenStore :=
  [{ userId := 1, tokenHash := ("H").toList,
     expiresAt := toISOString (c5NowDT.addDays 1),
     createdAt := toISOString c5NowDT }]

/-- Old payload of the two-token rotation witness: issued at second -10. -/
def c5bOldPc : JwtPayload := refreshBuiltPayload (-10) 1 (.str (("u").toList)) 86400

/-- New payload of the two-token rotation witness: issued at second 0. -/
def c5bNewPc : JwtPayload := refreshBuiltPayload 0 1 (.str (("u").toList)) 86400

/-- JWT environment of the rotation witness, distinguishing the two
payloads. -/
def c5bEnv : JwtEnv := twoEnv hs256Header c5bOldPc c5bNewPc

/-- The old and new tokens of the rotation witness. -/
def c5bOldTok : JStr := ("AQ.AA.Ag").toList

/-- The new token of the rotation witness. -/
def c5bNewTok : JStr := ("AQ.Aw.Ag").toList

/-- Refresh environment of the rotation witness: the sha-256 parameter
distinguishes the two tokens. -/
def c5bR : RefreshEnv :=
  { jwt := c5bEnv,
    sha256hex := fun s => if s = c5bOldTok then ("A").toList else ("B").toList,
    refreshSecret := ("k").toList }

/-- Store before the witness rotation: the old token's record. -/
def c5bStore : TokenStore :=
  [{ userId := 1, tokenHash := ("A").toList,
     expiresAt := toISOString (c5NowDT.addDays 1),
     createdAt := toISOString c5NowDT }]

/-- Store after the witness rotation: only the new token's record. -/
def c5bStore2 : TokenStore :=
  [{ userId := 1, tokenHash := ("B").toList,
     expiresAt := toISOString (c5NowDT.addDays 1),
     createdAt := toISOString c5NowDT }]

/-- Decidable equality of `Except` results, for concrete evaluation. -/
instance {ε α : Type} [DecidableEq ε] [DecidableEq α] :
    DecidableEq (Except ε α) := fun x y =>
  match x, y with
  | .ok a, .ok b =>
    if h : a = b then isTrue (by rw [h])
    else isFalse (fun hc => h (by injection hc))
  | .ok _, .error _ => isFalse (fun hc => Except.noConfusion hc)
  | .error _, .ok _ => isFalse (fun hc => Except.noConfusion hc)
  | .error e, .error f =>
    if h : e = f then isTrue (by rw [h])
    else isFalse (fun hc => h (by injection hc))

/-! ### Object and split lemmas -/

theorem jget_jset_self (k : JStr) (v : JVal) (p : JObj) :
    jget k (jset k v p) = some v := by
  induction p with
  | nil => simp [jget, jset]
  | cons kv rest ih =>
    by_cases h : kv.1 = k
    · simp [jset, h, jget]
    · simp [jset, h, jget, ih]

theorem jget_jset_other {k k' : JStr} (h : k' ≠ k) (v : JVal) (p : JObj) :
    jget k (jset k' v p) = jget k p := by
  induction p with
  | nil => simp [jget, jset, h]
  | cons kv rest ih =>
    obtain ⟨k0, v0⟩ := kv
    by_cases hk : k0 = k'
    · subst hk
      simp [jset, jget, h]
    · by_cases hk2 : k0 = k
      · simp [jset, hk, jget, hk2, Ne.symm h]
      · simp [jset, hk, jget, hk2, ih]

theorem splitOn_no_sep {sep : Char} {a : JStr} (h : sep ∉ a) :
    splitOn sep a = [a] := by
  induction a with
  | nil => rfl
  | cons c rest ih =>
    have hc : ¬ c = sep := fun hcs => h (hcs ▸ List.mem_cons_self c rest)
    have hr := ih (fun hm => h (List.mem_cons_of_mem c hm))
    simp [splitOn, hc, hr]

theorem splitOn_append {sep : Char} {a : JStr} (h : sep ∉ a) (t : JStr) :
    splitOn sep (a ++ sep :: t) = a :: splitOn sep t := by
  induction a with
  | nil => simp [splitOn]
  | cons c rest ih =>
    have hc : ¬ c = sep := fun hcs => h (hcs ▸ List.mem_cons_self c rest)
    have hr := ih (fun hm => h (List.mem_cons_of_mem c hm))
    cases hsp : splitOn sep (rest ++ sep :: t) with
    | nil => rw [hr] at hsp; cases hsp
    | cons s ss =>
      rw [hr] at hsp
      cases hsp
      simp [splitOn, hc, hr]

/-- A three-segment join splits back into its segments. -/
theorem splitOn_three {a b c : JStr} (ha : '.' ∉ a) (hb : '.' ∉ b)
    (hc : '.' ∉ c) : splitOn '.' (a ++ '.' :: (b ++ '.' :: c)) = [a, b, c] := by
  rw [splitOn_append ha, splitOn_append hb, splitOn_no_sep hc]

/-! ### Base64 lemmas -/

theorem charToSix_sixToChar {n : Nat} (h : n < 64) :
    charToSix (sixToChar n) = some n := by
  have : ∀ m : Fin 64, charToSix (sixToChar m.val) = some m.val := by decide
  exact this ⟨n, h⟩

theorem sixToChar_mem (n : Nat) : sixToChar n ∈ b64Alphabet := by
  unfold sixToChar
  rcases lt_or_ge n b64Alphabet.length with h | h
  · rw [List.getD_eq_getElem _ _ h]
    exact List.getElem_mem h
  · rw [List.getD_eq_default _ _ h]
    decide

theorem alphabet_not_pad : ∀ c ∈ b64Alphabet, c ≠ '=' := by decide

theorem urlE_alphabet_not_dot : ∀ c ∈ b64Alphabet, urlE c ≠ '.' := by decide

theorem urlD_urlE : ∀ c ∈ b64Alphabet, urlD (urlE c) = c := by decide

theorem urlE_alphabet_not_pad : ∀ c ∈ b64Alphabet, urlE c ≠ '=' := by decide

theorem b64Body_mem {bs : List Nat} {c : Char} (h : c ∈ b64Body bs) :
    c ∈ b64Alphabet := by
  induction bs using b64Body.induct with
  | case1 => cases h
  | case2 b0 =>
    simp only [b64Body, List.mem_cons, List.not_mem_nil, or_false] at h
    rcases h with rfl | rfl
    · exact sixToChar_mem _
    · exact sixToChar_mem _
  | case3 b0 b1 =>
    simp only [b64Body, List.mem_cons, List.not_mem_nil, or_false] at h
    rcases h with rfl | rfl | rfl
    · exact sixToChar_mem _
    · exact sixToChar_mem _
    · exact sixToChar_mem _
  | case4 b0 b1 b2 rest ih =>
    simp only [b64Body, List.mem_cons] at h
    rcases h with rfl | rfl | rfl | rfl | h
    · exact sixToChar_mem _
    · exact sixToChar_mem _
    · exact sixToChar_mem _
    · exact sixToChar_mem _
    · exact ih h

/-- Stripping the padding of the standard encoding leaves `b64Body`. -/
theorem filter_encode (bs : List Nat) :
    (b64EncodeGroups bs).filter (· ≠ '=') = b64Body bs := by
  induction bs using b64EncodeGroups.induct with
  | case1 => rfl
  | case2 b0 =>
    simp [b64EncodeGroups, b64Body, List.filter, decide_not,
      alphabet_not_pad _ (sixToChar_mem (b0 / 4)),
      alphabet_not_pad _ (sixToChar_mem (b0 % 4 * 16))]
  | case3 b0 b1 =>
    simp [b64EncodeGroups, b64Body, List.filter, decide_not,
      alphabet_not_pad _ (sixToChar_mem (b0 / 4)),
      alphabet_not_pad _ (sixToChar_mem (b0 % 4 * 16 + b1 / 16)),
      alphabet_not_pad _ (sixToChar_mem (b1 % 16 * 4))]
  | case4 b0 b1 b2 rest ih =>
    simp only [ne_eq, decide_not] at ih
    simp [b64EncodeGroups, b64Body, List.filter,
      alphabet_not_pad _ (sixToChar_mem (b0 / 4)),
      alphabet_not_pad _ (sixToChar_mem (b0 % 4 * 16 + b1 / 16)),
      alphabet_not_pad _ (sixToChar_mem (b1 % 16 * 4 + b2 / 64)),
      alphabet_not_pad _ (sixToChar_mem (b2 % 64)), decide_not, ih]

/-- `base64urlEncode` is `b64Body` under the url character replacement. -/
theorem base64urlEncode_eq (bs : List Nat) :
    base64urlEncode bs = (b64Body bs).map urlE := by
  unfold base64urlEncode
  rw [filter_encode, List.map_map]
  apply List.map_congr_left
  intro c _
  by_cases h1 : c = '+'
  · simp [h1, urlE]
  · by_cases h2 : c = '/'
    · simp [h1, h2, urlE]
    · simp [h1, h2, urlE]

/-- No `.` ever occurs in a `base64urlEncode` output. -/
theorem base64urlEncode_no_dot (bs : List Nat) : '.' ∉ base64urlEncode bs := by
  rw [base64urlEncode_eq]
  intro h
  rcases List.mem_map.1 h with ⟨c, hc, hce⟩
  exact urlE_alphabet_not_dot _ (b64Body_mem hc) hce

theorem takeWhile_append_of_all {P : Char → Bool} {l : JStr}
    (h : ∀ c ∈ l, P c = true) (r : JStr) :
    List.takeWhile P (l ++ r) = l ++ List.takeWhile P r := by
  induction l with
  | nil => simp
  | cons c rest ih =>
    have hc : P c = true := h c (List.mem_cons_self c rest)
    have hr := ih (fun x hx => h x (List.mem_cons_of_mem c hx))
    simp [List.takeWhile, hc, hr]

theorem urlD_comp (c : Char) :
    (if (if c = '-' then '+' else c) = '_' then '/'
     else (if c = '-' then '+' else c)) = urlD c := by
  unfold urlD
  by_cases h1 : c = '-'
  · simp [h1]
  · by_cases h2 : c = '_'
    · simp [h1, h2]
    · simp [h1, h2]

/-- Reversing the url replacements on an encoded string recovers `b64Body`. -/
theorem urlD_map_encode (bs : List Nat) :
    ((base64urlEncode bs).map (fun c => if c = '-' then '+' else c)).map
      (fun c => if c = '_' then '/' else c) = b64Body bs := by
  rw [base64urlEncode_eq, List.map_map, List.map_map]
  have h2 : ∀ c ∈ b64Body bs,
      (((fun c => if c = '_' then '/' else c) ∘
        (fun c => if c = '-' then '+' else c)) ∘ urlE) c = id c := by
    intro c hc
    show (if (if urlE c = '-' then '+' else urlE c) = '_' then '/'
          else (if urlE c = '-' then '+' else urlE c)) = c
    rw [urlD_comp (urlE c)]
    exact urlD_urlE _ (b64Body_mem hc)
  rw [List.map_congr_left h2, List.map_id]

/-- Decoding the 6-bit groups of `b64Body` recovers the bytes. -/
theorem decode_body {bs : List Nat} (h : ∀ b ∈ bs, b < 256) :
    decodeSixes ((b64Body bs).filterMap charToSix) = bs := by
  induction bs using b64Body.induct with
  | case1 => rfl
  | case2 b0 =>
    have hb0 : b0 < 256 := h b0 (by simp)
    have h0 : b0 / 4 < 64 := by omega
    have h1 : b0 % 4 * 16 < 64 := by omega
    simp [b64Body, List.filterMap, charToSix_sixToChar h0,
      charToSix_sixToChar h1, decodeSixes]
    omega
  | case3 b0 b1 =>
    have hb0 : b0 < 256 := h b0 (by simp)
    have hb1 : b1 < 256 := h b1 (by simp)
    have h0 : b0 / 4 < 64 := by omega
    have h1 : b0 % 4 * 16 + b1 / 16 < 64 := by omega
    have h2 : b1 % 16 * 4 < 64 := by omega
    simp [b64Body, List.filterMap, charToSix_sixToChar h0,
      charToSix_sixToChar h1, charToSix_sixToChar h2, decodeSixes]
    constructor
    · omega
    · omega
  | case4 b0 b1 b2 rest ih =>
    have hb0 : b0 < 256 := h b0 (by simp)
    have hb1 : b1 < 256 := h b1 (by simp)
    have hb2 : b2 < 256 := h b2 (by simp)
    have hrest : ∀ b ∈ rest, b < 256 := by
      intro b hb
      exact h b (by simp [hb])
    have h0 : b0 / 4 < 64 := by omega
    have h1 : b0 % 4 * 16 + b1 / 16 < 64 := by omega
    have h2 : b1 % 16 * 4 + b2 / 64 < 64 := by omega
    have h3 : b2 % 64 < 64 := by omega
    simp [b64Body, List.filterMap, charToSix_sixToChar h0,
      charToSix_sixToChar h1, charToSix_sixToChar h2,
      charToSix_sixToChar h3, decodeSixes, ih hrest]
    refine ⟨by omega, by omega, by omega⟩

/-- The Node base64url codec round-trips on byte lists. -/
theorem base64url_round_trip {bs : List Nat} (h : ∀ b ∈ bs, b < 256) :
    base64urlDecode (base64urlEncode bs) = bs := by
  have hbody : ∀ c ∈ b64Body bs, (decide (c ≠ '=')) = true := by
    intro c hc
    simpa using alphabet_not_pad _ (b64Body_mem hc)
  have hrep : ∀ n, List.takeWhile (fun c => decide (c ≠ '='))
      (List.replicate n '=') = [] := by
    intro n
    cases n with
    | zero => rfl
    | succ m => simp [List.replicate, List.takeWhile]
  unfold base64urlDecode
  rw [urlD_map_encode]
  show nodeB64Decode (if 4 - (b64Body bs).length % 4 ≠ 4 then
    b64Body bs ++ List.replicate (4 - (b64Body bs).length % 4) '='
    else b64Body bs) = bs
  by_cases hpad : 4 - (b64Body bs).length % 4 ≠ 4
  · rw [if_pos hpad]
    unfold nodeB64Decode
    rw [takeWhile_append_of_all hbody, hrep, List.append_nil]
    exact decode_body h
  · rw [if_neg hpad]
    unfold nodeB64Decode
    have h2 := takeWhile_append_of_all hbody []
    rw [List.append_nil] at h2
    rw [h2, List.takeWhile_nil, List.append_nil]
    exact decode_body h

/-! ### Decimal rendering lemmas -/

theorem charDigitVal_digitChar {d : Nat} (h : d < 10) :
    charDigitVal (digitChar d) = d := by
  have : ∀ m : Fin 10, charDigitVal (digitChar m.val) = m.val := by decide
  exact this ⟨d, h⟩

theorem digitChar_isDigit {d : Nat} (h : d < 10) :
    (digitChar d).isDigit = true := by
  have : ∀ m : Fin 10, (digitChar m.val).isDigit = true := by decide
  exact this ⟨d, h⟩

theorem digitsToNat_rev_digits (n : Nat) :
    digitsToNat ((Nat.digits 10 n).reverse.map digitChar) = n := by
  induction n using Nat.strong_induction_on with
  | _ n ih =>
    rcases Nat.eq_zero_or_pos n with rfl | hn
    · simp [digitsToNat]
    · rw [Nat.digits_def' (by norm_num : (1:ℕ) < 10) hn]
      simp only [List.reverse_cons, List.map_append, List.map_cons,
        List.map_nil]
      unfold digitsToNat
      rw [List.foldl_append]
      have hrec := ih (n / 10) (Nat.div_lt_self hn (by norm_num))
      unfold digitsToNat at hrec
      rw [hrec]
      simp [charDigitVal_digitChar (Nat.mod_lt n (by norm_num : 0 < 10))]
      omega

theorem natDigitsAux_spec : ∀ f n : Nat, n ≤ f →
    natDigitsAux f n = (Nat.digits 10 n).reverse.map digitChar := by
  intro f
  induction f with
  | zero =>
    intro n hn
    have : n = 0 := Nat.le_zero.1 hn
    subst this
    simp [natDigitsAux]
  | succ f ih =>
    intro n hn
    rcases eq_or_ne n 0 with rfl | hne
    · simp [natDigitsAux]
    · have hpos : 0 < n := Nat.pos_of_ne_zero hne
      rw [Nat.digits_def' (by norm_num : (1:ℕ) < 10) hpos]
      have hdiv : n / 10 ≤ f := by
        have := Nat.div_lt_self hpos (by norm_num : 1 < 10)
        omega
      simp only [natDigitsAux, hne, if_false, ih (n / 10) hdiv,
        List.reverse_cons, List.map_append, List.map_cons, List.map_nil]

theorem natToJStr_eq_digits (n : Nat) (hn : n ≠ 0) :
    natToJStr n = (Nat.digits 10 n).reverse.map digitChar := by
  unfold natToJStr
  rw [if_neg hn]
  exact natDigitsAux_spec n n le_rfl

theorem digitsToNat_natToJStr (n : Nat) : digitsToNat (natToJStr n) = n := by
  rcases eq_or_ne n 0 with rfl | hn
  · decide
  · rw [natToJStr_eq_digits n hn]
    exact digitsToNat_rev_digits n

theorem natToJStr_all_digits (n : Nat) :
    (natToJStr n).all Char.isDigit = true := by
  rcases eq_or_ne n 0 with rfl | hn
  · decide
  · rw [natToJStr_eq_digits n hn]
    rw [List.all_eq_true]
    intro c hc
    rcases List.mem_map.1 hc with ⟨d, hd, rfl⟩
    have hd10 : d < 10 :=
      Nat.digits_lt_base (by norm_num) (List.mem_reverse.1 hd)
    exact digitChar_isDigit hd10

theorem natToJStr_ne_nil (n : Nat) : natToJStr n ≠ [] := by
  rcases eq_or_ne n 0 with rfl | hn
  · decide
  · rw [natToJStr_eq_digits n hn]
    intro hcon
    have hne : Nat.digits 10 n ≠ [] := Nat.digits_ne_nil_iff_ne_zero.2 hn
    simp at hcon
    exact hne hcon

/-- Parsing `"<rendered digits><unit>"` back through `parseTimespan`. -/
theorem parse_render_unit (k : Nat) (u : Char)
    (hu : u = 's' ∨ u = 'm' ∨ u = 'h' ∨ u = 'd') :
    parseTimespan (.str (natToJStr k ++ [u])) = .ok ((k : Int) * unitMul u) := by
  have hnotdig : u.isDigit = false := by
    rcases hu with rfl | rfl | rfl | rfl <;> decide
  have hall : ((natToJStr k ++ [u]).all Char.isDigit) = false := by
    rw [List.all_append]
    simp [hnotdig]
  have hmatch : tsMatch (natToJStr k ++ [u]) = some (digitsToNat (natToJStr k), u) := by
    unfold tsMatch
    rw [List.getLast?_concat, List.dropLast_concat]
    show (if (u = 's' ∨ u = 'm' ∨ u = 'h' ∨ u = 'd') ∧ natToJStr k ≠ [] ∧
        (natToJStr k).all Char.isDigit = true then
        some (digitsToNat (natToJStr k), u) else none) =
      some (digitsToNat (natToJStr k), u)
    rw [if_pos ⟨hu, natToJStr_ne_nil k, natToJStr_all_digits k⟩]
  have hcond : ¬((natToJStr k ++ [u]) ≠ [] ∧
      (natToJStr k ++ [u]).all Char.isDigit = true) := by
    intro hcon
    rw [hall] at hcon
    exact absurd hcon.2 (by simp)
  simp only [parseTimespan]
  rw [if_neg hcond, hmatch]
  simp [digitsToNat_natToJStr]

/-! ### Engine computation lemmas -/

theorem exc_bind_ok {ε α β : Type} (a : α) (f : α → Except ε β) :
    (Except.ok a >>= f : Except ε β) = f a := rfl

theorem exc_bind_err {ε α β : Type} (e : ε) (f : α → Except ε β) :
    (Except.error e >>= f : Except ε β) = Except.error e := rfl

theorem nodeAlgOf_algStr (a : HmacAlg) : nodeAlgOf (algStr a) = some (shaName a) := by
  cases a <;> decide

theorem createSignature_algStr (E : JwtEnv) (a : HmacAlg) (secret si : JStr) :
    createSignature E (algStr a) secret si =
      .ok (base64urlEncode (E.hmacBytes (shaName a) secret si)) := by
  unfold createSignature
  rw [nodeAlgOf_algStr]

theorem buildHeader_basic (alg : HmacAlg) (o : SignOptions)
    (hh : o.header = none) (hk : o.keyid = none) :
    buildHeader alg o =
      [(("alg").toList, JVal.str (algStr alg)),
       (("typ").toList, JVal.str (("JWT").toList))] := by
  unfold buildHeader
  rw [hh, hk]
  rfl

/-- `sign` under a non-empty secret and successful payload build. -/
theorem sign_eq (E : JwtEnv) (w : Int) (p : JwtPayload) (secret : JStr)
    (o : SignOptions) (pc : JwtPayload) (hsec : secret ≠ [])
    (hb : buildPayload w p o = .ok pc) :
    sign E w p secret o = .ok
      (base64urlEncode (E.jsonHeaderBytes (buildHeader (o.algorithm.getD .HS256) o)) ++
       '.' :: (base64urlEncode (E.jsonPayloadBytes pc) ++
       '.' :: base64urlEncode (E.hmacBytes (shaName (o.algorithm.getD .HS256)) secret
         (base64urlEncode (E.jsonHeaderBytes (buildHeader (o.algorithm.getD .HS256) o)) ++
          '.' :: base64urlEncode (E.jsonPayloadBytes pc))))) := by
  unfold sign
  simp [hsec, hb, createSignature_algStr, exc_bind_ok]

/-- `parseJwtToken` on a well-formed three-segment token whose header and
payload segments encode byte lists the codec parses back. -/
theorem parseJwtToken_eq (E : JwtEnv) (hb pb : List Nat) (sig : JStr)
    (hdr : JwtHeader) (pc : JwtPayload)
    (hhb : ∀ b ∈ hb, b < 256) (hpb : ∀ b ∈ pb, b < 256) (hsig : '.' ∉ sig)
    (hH : E.parseHeaderBytes hb = .ok hdr) (hP : E.parsePayloadBytes pb = .ok pc) :
    parseJwtToken E (base64urlEncode hb ++ '.' :: (base64urlEncode pb ++ '.' :: sig)) =
      .ok (base64urlEncode hb, base64urlEncode pb, sig, hdr, pc) := by
  unfold parseJwtToken
  rw [splitOn_three (base64urlEncode_no_dot hb) (base64urlEncode_no_dot pb) hsig]
  simp [base64url_round_trip hhb, base64url_round_trip hpb, hH, hP, exc_bind_ok]

/-- `buildPayload` under the round-trip claim's sign options. -/
theorem buildPayload_c1 (w now : Int) (p : JwtPayload) (alg : HmacAlg)
    (ts : TsIn) (issuer : JStr) (d : Int) (hiss : issuer ≠ [])
    (hts : truthyTs ts = true) (hd : parseTimespan ts = .ok d)
    (hiat : jget (("iat").toList) p = none) :
    buildPayload w p (c1SignOpts alg ts issuer now) =
      .ok (jset (("exp").toList) (.num (now + d))
            (jset (("iat").toList) (.num now)
              (jset (("iss").toList) (.str issuer) p))) := by
  unfold buildPayload c1SignOpts
  have hiat2 : jget [ 'i', 'a', 't'] p = none := hiat
  simp [hiss, hts, hd, exc_bind_ok, hiat2,
    jget_jset_other (show ([ 'i', 's', 's'] : JStr) ≠ [ 'i', 'a', 't'] by decide)]

/-- `validateTimeClaims` succeeds when `nbf` is absent, `exp` (if present) is
a number strictly in the future, the clock is injected, tolerance is unset or
zero, and `maxAge` is unset. -/
theorem validateTimeClaims_ok (w now : Int) (pc : JwtPayload) (o : VerifyOptions)
    (hclock : o.clockTimestamp.getD w = now)
    (htol : o.clockTolerance = none ∨ o.clockTolerance = some 0)
    (hmax : o.maxAge = none)
    (hnbf : jget (("nbf").toList) pc = none)
    (hexp : ∀ v, jget (("exp").toList) pc = some v →
      ∃ e : Int, v = .num e ∧ now < e) :
    validateTimeClaims w pc o = .ok () := by
  unfold validateTimeClaims
  rw [hclock, hnbf, hmax]
  have htol0 : o.clockTolerance.getD 0 = 0 := by
    rcases htol with h | h <;> simp [h]
  rw [htol0]
  cases hv : jget (("exp").toList) pc with
  | none => simp [exc_bind_ok, pure, Except.pure]
  | some v =>
    rcases hexp v hv with ⟨e, rfl, he⟩
    have hnot : ¬ e ≤ now := by omega
    simp [hnot, exc_bind_ok, pure, Except.pure]

/-- `validateStandardClaims` succeeds when the issuer option (if present, a
single non-empty string) matches the payload `iss` and subject/audience
options are unset. -/
theorem validateStandardClaims_ok (pc : JwtPayload) (o : VerifyOptions)
    (hiss : o.issuer = none ∨
      (∃ s, o.issuer = some (.one s) ∧ s ≠ [] ∧
        jget (("iss").toList) pc = some (.str s)))
    (hsub : o.subject = none) (haud : o.audience = none) :
    validateStandardClaims pc o = .ok () := by
  unfold validateStandardClaims
  rw [hsub, haud]
  rcases hiss with h | ⟨s, hset, hne, hget⟩
  · rw [h]
    simp [exc_bind_ok, pure, Except.pure]
  · rw [hset, hget]
    simp [truthySL, hne, slToList, exc_bind_ok, pure, Except.pure]

theorem exc_pure {ε α : Type} (a : α) : (pure a : Except ε α) = Except.ok a := rfl

theorem exc_throw {ε α : Type} (e : ε) :
    (throw e : Except ε α) = Except.error e := rfl

/-- Claim C1: for every payload, every non-empty secret and each of HS256,
HS384, HS512, verifying the signed token with the same secret succeeds and
returns the built payload, which carries the injected standard claims
(`iss` from the issuer option, `iat = now`, `exp = now + span`) and all
original claims unchanged. Verification is stated both for the scenario's
options (allow-list `[alg]`, same issuer) and for plain `verify(token,
secret)`; the payload is assumed not already to carry `exp`/`nbf`/`iat`, the
expiry span is positive, and the JSON codec round-trips on the two objects
this token encodes (its byte outputs being bytes). -/
theorem c1_sign_verify_round_trip
    (E : JwtEnv) (now : Int) (p : JwtPayload) (secret issuer : JStr)
    (alg : HmacAlg) (ts : TsIn) (d : Int) (pc : JwtPayload) (vo : VerifyOptions)
    (hsec : secret ≠ []) (hiss : issuer ≠ [])
    (hts : truthyTs ts = true) (hd : parseTimespan ts = .ok d) (hdpos : 0 < d)
    (hexp0 : jget (("exp").toList) p = none)
    (hnbf0 : jget (("nbf").toList) p = none)
    (hiat0 : jget (("iat").toList) p = none)
    (hbuild : buildPayload now p (c1SignOpts alg ts issuer now) = .ok pc)
    (hHb : ∀ b ∈ E.jsonHeaderBytes (buildHeader alg (c1SignOpts alg ts issuer now)), b < 256)
    (hH : E.parseHeaderBytes (E.jsonHeaderBytes (buildHeader alg (c1SignOpts alg ts issuer now))) =
      .ok (buildHeader alg (c1SignOpts alg ts issuer now)))
    (hPb : ∀ b ∈ E.jsonPayloadBytes pc, b < 256)
    (hP : E.parsePayloadBytes (E.jsonPayloadBytes pc) = .ok pc)
    (hvo : vo = c1VerifyOpts alg issuer now ∨ vo = c1PlainVerifyOpts now) :
    (∀ tok, sign E now p secret (c1SignOpts alg ts issuer now) = .ok tok →
      verify E now tok secret vo = .ok pc) ∧
    (sign E now p secret (c1SignOpts alg ts issuer now)).isOk = true ∧
    jget (("iss").toList) pc = some (.str issuer) ∧
    jget (("iat").toList) pc = some (.num now) ∧
    jget (("exp").toList) pc = some (.num (now + d)) ∧
    (∀ k, k ≠ ("iss").toList → k ≠ ("iat").toList → k ≠ ("exp").toList →
      jget k pc = jget k p) := by
  have hb2 := buildPayload_c1 now now p alg ts issuer d hiss hts hd hiat0
  have hpc : pc = jset (("exp").toList) (.num (now + d))
      (jset (("iat").toList) (.num now)
        (jset (("iss").toList) (.str issuer) p)) := by
    injection (hbuild.symm.trans hb2)
  subst hpc
  have hsign := sign_eq E now p secret (c1SignOpts alg ts issuer now) _ hsec hbuild
  have halg : (c1SignOpts alg ts issuer now).algorithm.getD .HS256 = alg := rfl
  rw [halg] at hsign
  have hIss : jget (("iss").toList)
      (jset (("exp").toList) (.num (now + d))
        (jset (("iat").toList) (.num now)
          (jset (("iss").toList) (.str issuer) p))) = some (.str issuer) := by
    rw [jget_jset_other (by decide), jget_jset_other (by decide), jget_jset_self]
  have hIat : jget (("iat").toList)
      (jset (("exp").toList) (.num (now + d))
        (jset (("iat").toList) (.num now)
          (jset (("iss").toList) (.str issuer) p))) = some (.num now) := by
    rw [jget_jset_other (by decide), jget_jset_self]
  have hExp : jget (("exp").toList)
      (jset (("exp").toList) (.num (now + d))
        (jset (("iat").toList) (.num now)
          (jset (("iss").toList) (.str issuer) p))) = some (.num (now + d)) := by
    rw [jget_jset_self]
  have hNbf : jget (("nbf").toList)
      (jset (("exp").toList) (.num (now + d))
        (jset (("iat").toList) (.num now)
          (jset (("iss").toList) (.str issuer) p))) = none := by
    rw [jget_jset_other (by decide), jget_jset_other (by decide),
      jget_jset_other (by decide)]
    exact hnbf0
  have hhdr : buildHeader alg (c1SignOpts alg ts issuer now) =
      [(("alg").toList, JVal.str (algStr alg)),
       (("typ").toList, JVal.str (("JWT").toList))] :=
    buildHeader_basic alg _ rfl rfl
  have halgget : jget (("alg").toList)
      (buildHeader alg (c1SignOpts alg ts issuer now)) = some (.str (algStr alg)) := by
    rw [hhdr]
    simp [jget]
  have hparse := parseJwtToken_eq E
    (E.jsonHeaderBytes (buildHeader alg (c1SignOpts alg ts issuer now)))
    (E.jsonPayloadBytes (jset (("exp").toList) (.num (now + d))
      (jset (("iat").toList) (.num now) (jset (("iss").toList) (.str issuer) p))))
    (base64urlEncode (E.hmacBytes (shaName alg) secret
      (base64urlEncode (E.jsonHeaderBytes (buildHeader alg (c1SignOpts alg ts issuer now))) ++
       '.' :: base64urlEncode (E.jsonPayloadBytes (jset (("exp").toList) (.num (now + d))
        (jset (("iat").toList) (.num now) (jset (("iss").toList) (.str issuer) p)))))))
    _ _ hHb hPb (base64urlEncode_no_dot _) hH hP
  have hvtc : validateTimeClaims now
      (jset (("exp").toList) (.num (now + d))
        (jset (("iat").toList) (.num now)
          (jset (("iss").toList) (.str issuer) p))) vo = .ok () := by
    rcases hvo with rfl | rfl
    · exact validateTimeClaims_ok now now _ _ rfl (Or.inl rfl) rfl hNbf
        (fun v hv => by rw [hExp] at hv; refine ⟨now + d, ?_, by omega⟩; injection hv with h2; exact h2.symm)
    · exact validateTimeClaims_ok now now _ _ rfl (Or.inl rfl) rfl hNbf
        (fun v hv => by rw [hExp] at hv; refine ⟨now + d, ?_, by omega⟩; injection hv with h2; exact h2.symm)
  have hvsc : validateStandardClaims
      (jset (("exp").toList) (.num (now + d))
        (jset (("iat").toList) (.num now)
          (jset (("iss").toList) (.str issuer) p))) vo = .ok () := by
    rcases hvo with rfl | rfl
    · exact validateStandardClaims_ok _ _ (Or.inr ⟨issuer, rfl, hiss, hIss⟩) rfl rfl
    · exact validateStandardClaims_ok _ _ (Or.inl rfl) rfl rfl
  refine ⟨?_, by rw [hsign]; rfl, hIss, hIat, hExp, ?_⟩
  · intro tok htok
    rw [hsign] at htok
    injection htok with htok2
    subst htok2
    unfold verify
    rw [hparse]
    have halgget2 : jget [ 'a', 'l', 'g']
        (buildHeader alg (c1SignOpts alg ts issuer now)) =
        some (JVal.str (algStr alg)) := halgget
    rcases hvo with rfl | rfl
    · have hvtc2 : validateTimeClaims now
          (jset [ 'e', 'x', 'p'] (JVal.num (now + d))
            (jset [ 'i', 'a', 't'] (JVal.num now)
              (jset [ 'i', 's', 's'] (JVal.str issuer) p)))
          { algorithms := some [alg], issuer := some (StrOrList.one issuer),
            subject := none, audience := none, clockTimestamp := some now,
            clockTolerance := none, maxAge := none } = .ok () := hvtc
      have hvsc2 : validateStandardClaims
          (jset [ 'e', 'x', 'p'] (JVal.num (now + d))
            (jset [ 'i', 'a', 't'] (JVal.num now)
              (jset [ 'i', 's', 's'] (JVal.str issuer) p)))
          { algorithms := some [alg], issuer := some (StrOrList.one issuer),
            subject := none, audience := none, clockTimestamp := some now,
            clockTolerance := none, maxAge := none } = .ok () := hvsc
      simp [hsec, exc_bind_ok, exc_pure, halgget2, nodeAlgOf_algStr,
        createSignature_algStr, timingSafeEqualStr, c1VerifyOpts,
        hvtc2, hvsc2]
    · have hvtc2 : validateTimeClaims now
          (jset [ 'e', 'x', 'p'] (JVal.num (now + d))
            (jset [ 'i', 'a', 't'] (JVal.num now)
              (jset [ 'i', 's', 's'] (JVal.str issuer) p)))
          { algorithms := none, issuer := none,
            subject := none, audience := none, clockTimestamp := some now,
            clockTolerance := none, maxAge := none } = .ok () := hvtc
      have hvsc2 : validateStandardClaims
          (jset [ 'e', 'x', 'p'] (JVal.num (now + d))
            (jset [ 'i', 'a', 't'] (JVal.num now)
              (jset [ 'i', 's', 's'] (JVal.str issuer) p)))
          { algorithms := none, issuer := none,
            subject := none, audience := none, clockTimestamp := some now,
            clockTolerance := none, maxAge := none } = .ok () := hvsc
      simp [hsec, exc_bind_ok, exc_pure, halgget2, nodeAlgOf_algStr,
        createSignature_algStr, timingSafeEqualStr, c1PlainVerifyOpts,
        hvtc2, hvsc2]
  · intro k h1 h2 h3
    rw [jget_jset_other (fun he => h3 he.symm),
      jget_jset_other (fun he => h2 he.symm),
      jget_jset_other (fun he => h1 he.symm)]

/-- Witness for C1: the spec's scenario. Signing `{userId: 123}` with secret
`"s3cret"`, HS256, `expiresIn: "1h"`, issuer `"svc"` at clock 1000 yields the
token `c1Tok` (under the concrete witness codec), and verifying it with the
same secret, `algorithms: ["HS256"]`, issuer `"svc"` returns
`{userId: 123, iss: "svc", iat: 1000, exp: 4600}` with `exp = iat + 3600`. -/
theorem c1_round_trip_witness :
    verify c1Env 1000 c1Tok (("s3cret").toList)
      (c1VerifyOpts .HS256 (("svc").toList) 1000) = .ok c1Pc :=
  (c1_sign_verify_round_trip c1Env 1000 c1P (("s3cret").toList) (("svc").toList)
    .HS256 (.str (("1h").toList)) 3600 c1Pc
    (c1VerifyOpts .HS256 (("svc").toList) 1000)
    (by decide) (by decide) (by decide) (by decide) (by decide)
    (by decide) (by decide) (by decide) (by decide)
    (by decide) (by decide) (by decide) (by decide)
    (Or.inl rfl)).1 c1Tok (by decide)

/-- Claim C2: a token correctly signed with HS256 (header declaring HS256,
no caller header override) fails verification, with the correct secret, when
the verifier's allow-list is `["HS384"]`: the result is the
algorithm-mismatch error `JsonWebTokenError("Invalid algorithm: HS256")`,
never a payload. Stated for any verify options whose `algorithms` is
`["HS384"]` and any verification clock. -/
theorem c2_algorithm_mismatch
    (E : JwtEnv) (w w2 : Int) (p : JwtPayload) (secret : JStr)
    (o : SignOptions) (pc : JwtPayload) (vo : VerifyOptions)
    (hsec : secret ≠ [])
    (halgo : o.algorithm.getD .HS256 = .HS256)
    (hh : o.header = none) (hk : o.keyid = none)
    (hbuild : buildPayload w p o = .ok pc)
    (hHb : ∀ b ∈ E.jsonHeaderBytes (buildHeader .HS256 o), b < 256)
    (hH : E.parseHeaderBytes (E.jsonHeaderBytes (buildHeader .HS256 o)) =
      .ok (buildHeader .HS256 o))
    (hPb : ∀ b ∈ E.jsonPayloadBytes pc, b < 256)
    (hP : E.parsePayloadBytes (E.jsonPayloadBytes pc) = .ok pc)
    (halgs : vo.algorithms = some [.HS384]) :
    ∀ tok, sign E w p secret o = .ok tok →
      verify E w2 tok secret vo =
        .error (.jsonWebToken (("Invalid algorithm: HS256").toList)) := by
  intro tok htok
  have hsign := sign_eq E w p secret o pc hsec hbuild
  rw [halgo] at hsign
  rw [hsign] at htok
  injection htok with htok2
  subst htok2
  have hhdr := buildHeader_basic .HS256 o hh hk
  have halgget : jget [ 'a', 'l', 'g'] (buildHeader .HS256 o) =
      some (JVal.str (algStr .HS256)) := by
    rw [hhdr]
    simp [jget]
  have hparse := parseJwtToken_eq E
    (E.jsonHeaderBytes (buildHeader .HS256 o)) (E.jsonPayloadBytes pc)
    (base64urlEncode (E.hmacBytes (shaName .HS256) secret
      (base64urlEncode (E.jsonHeaderBytes (buildHeader .HS256 o)) ++
       '.' :: base64urlEncode (E.jsonPayloadBytes pc))))
    _ _ hHb hPb (base64urlEncode_no_dot _) hH hP
  unfold verify
  rw [hparse]
  simp [hsec, exc_bind_ok, exc_pure, exc_throw, exc_bind_err, halgget, halgs, algStr, nodeAlgOf]

/-- Claim C10: when `options.algorithms` is the empty list, `verify` rejects
every token (an empty JS array is truthy, so the allow-list check applies and
no declared algorithm can be a member): no token, however signed, verifies to
a payload. -/
theorem c10_empty_allowlist (E : JwtEnv) (w : Int) (token secret : JStr)
    (vo : VerifyOptions) (halgs : vo.algorithms = some []) :
    ∀ pl, verify E w token secret vo ≠ .ok pl := by
  intro pl
  unfold verify
  by_cases hsec : secret = []
  · simp [hsec, exc_bind_ok, exc_pure, exc_throw, exc_bind_err]
  · cases hp : parseJwtToken E token with
    | error e => simp [hsec, hp, exc_bind_ok, exc_pure, exc_throw, exc_bind_err]
    | ok t =>
      obtain ⟨eH, eP, sig, hdr, pl2⟩ := t
      cases halgJ : jget [ 'a', 'l', 'g'] hdr with
      | none => simp [hsec, hp, halgJ, exc_bind_ok, exc_pure, exc_throw, exc_bind_err]
      | some v =>
        cases v with
        | str a =>
          by_cases hna : nodeAlgOf a = none
          · simp [hsec, hp, halgJ, hna, exc_bind_ok, exc_pure, exc_throw, exc_bind_err]
          · simp [hsec, hp, halgJ, hna, halgs, exc_bind_ok, exc_pure, exc_throw, exc_bind_err]
        | num n => simp [hsec, hp, halgJ, exc_bind_ok, exc_pure, exc_throw, exc_bind_err]
        | vbool b => simp [hsec, hp, halgJ, exc_bind_ok, exc_pure, exc_throw, exc_bind_err]
        | strArr l => simp [hsec, hp, halgJ, exc_bind_ok, exc_pure, exc_throw, exc_bind_err]
        | vnull => simp [hsec, hp, halgJ, exc_bind_ok, exc_pure, exc_throw, exc_bind_err]
        | undef => simp [hsec, hp, halgJ, exc_bind_ok, exc_pure, exc_throw, exc_bind_err]

/-- Witness for C2: the scenario token of `c1Tok` (signed HS256 under
`"s3cret"`) is rejected with the algorithm-mismatch error when verified with
allow-list `["HS384"]` and the same secret. -/
theorem c2_algorithm_mismatch_witness :
    verify c1Env 1000 c1Tok (("s3cret").toList) c2WOpts =
      .error (.jsonWebToken (("Invalid algorithm: HS256").toList)) :=
  c2_algorithm_mismatch c1Env 1000 1000 c1P (("s3cret").toList)
    (c1SignOpts .HS256 (.str (("1h").toList)) (("svc").toList) 1000) c1Pc
    c2WOpts (by decide) rfl rfl rfl (by decide) (by decide) (by decide)
    (by decide) (by decide) rfl c1Tok (by decide)

/-- Witness for C10: with `algorithms: []`, even the correctly signed
scenario token does not verify to its payload. -/
theorem c10_empty_allowlist_witness :
    verify c1Env 1000 c1Tok (("s3cret").toList) c10WOpts ≠ .ok c1Pc :=
  c10_empty_allowlist c1Env 1000 c1Tok (("s3cret").toList) c10WOpts rfl c1Pc

/-- Claim C3: with `clockTolerance: 0`, a payload whose `exp` is the number
`e` (and whose `nbf`, when present, is a number not later than `e`) is
rejected by the time-claim validation at `clockTimestamp = e` with
`TokenExpiredError("jwt expired", e)` — the boundary is exclusive — while at
`clockTimestamp = e - 1` the validation never raises an expiry error. -/
theorem c3_expiry_boundary (w : Int) (p : JwtPayload) (e : Int)
    (hexp : jget (("exp").toList) p = some (.num e))
    (hnbf : ∀ v, jget (("nbf").toList) p = some v →
      ∃ n : Int, v = .num n ∧ n ≤ e) :
    validateTimeClaims w p (c3Opts e) =
      .error (.tokenExpired (("jwt expired").toList) e) ∧
    ∀ m x, validateTimeClaims w p (c3Opts (e - 1)) ≠
      .error (.tokenExpired m x) := by
  have hexp2 : jget [ 'e', 'x', 'p'] p = some (.num e) := hexp
  constructor
  · unfold validateTimeClaims c3Opts
    cases hv : jget (("nbf").toList) p with
    | none =>
      simp [hv, hexp2, exc_bind_ok, exc_pure, exc_throw, exc_bind_err]
    | some v =>
      rcases hnbf v hv with ⟨n, rfl, hn⟩
      have hnot : ¬ e + 0 < n := by omega
      have hnot2 : ¬ e < n := by omega
      simp [hv, hexp2, hnot, hnot2, exc_bind_ok, exc_pure, exc_throw,
        exc_bind_err]
  · intro m x
    unfold validateTimeClaims c3Opts
    have hnot : ¬ e ≤ e - 1 := by omega
    cases hv : jget (("nbf").toList) p with
    | none =>
      simp [hv, hexp2, hnot, exc_bind_ok, exc_pure, exc_throw, exc_bind_err]
    | some v =>
      rcases hnbf v hv with ⟨n, rfl, hn⟩
      by_cases hlt : e - 1 < n
      · have hlt2 : e - 1 + 0 < n := by omega
        simp [hv, hexp2, hlt, hlt2, hnot, exc_bind_ok, exc_pure, exc_throw,
          exc_bind_err]
      · have hlt2 : ¬ e - 1 + 0 < n := by omega
        simp [hv, hexp2, hlt, hlt2, hnot, exc_bind_ok, exc_pure, exc_throw,
          exc_bind_err]

/-- Witness for C3: the payload `{exp: 5}` is rejected as expired exactly at
clock 5 with `expiredAt = 5`. -/
theorem c3_expiry_boundary_witness :
    validateTimeClaims 0 c3P (c3Opts 5) =
      .error (.tokenExpired (("jwt expired").toList) 5) :=
  (c3_expiry_boundary 0 c3P 5 (by decide)
    (fun v hv => by simp [c3P, jget] at hv)).1

/-- Counterexample to C7 as stated: `parseTimespan(-5)` returns `-5` instead
of failing — any JS number, negative included, is returned as-is. -/
theorem c7_negative_number_cex : parseTimespan (.num (-5)) = .ok (-5) := by
  decide

/-- Claim C7 (amended): `parseTimespan` returns any number argument as-is
(negative numbers included); a non-empty digit-only string parses to its
integer value in seconds; a non-empty digit string followed by one unit in
`{s,m,h,d}` multiplies by the unit's seconds; every other string fails with
the invalid-timespan `TypeError`. -/
theorem c7_parse_timespan_amended :
    (∀ n : Int, parseTimespan (.num n) = .ok n) ∧
    (∀ s : JStr, s ≠ [] → s.all Char.isDigit = true →
      parseTimespan (.str s) = .ok (digitsToNat s)) ∧
    (∀ ds : JStr, ∀ u : Char, ds ≠ [] → ds.all Char.isDigit = true →
      (u = 's' ∨ u = 'm' ∨ u = 'h' ∨ u = 'd') →
      parseTimespan (.str (ds ++ [u])) = .ok ((digitsToNat ds : Int) * unitMul u)) ∧
    (∀ s : JStr, ¬(s ≠ [] ∧ s.all Char.isDigit = true) → tsMatch s = none →
      parseTimespan (.str s) =
        .error (.typeError (("Invalid timespan format: ").toList ++ s))) := by
  refine ⟨fun n => rfl, fun s hne hall => ?_, fun ds u hne hall hu => ?_, fun s hsh hm => ?_⟩
  · simp only [parseTimespan]
    rw [if_pos ⟨hne, hall⟩]
  · have hnotdig : u.isDigit = false := by
      rcases hu with rfl | rfl | rfl | rfl <;> decide
    have hallf : ((ds ++ [u]).all Char.isDigit) = false := by
      rw [List.all_append]
      simp [hnotdig]
    have hmatch : tsMatch (ds ++ [u]) = some (digitsToNat ds, u) := by
      unfold tsMatch
      rw [List.getLast?_concat, List.dropLast_concat]
      show (if (u = 's' ∨ u = 'm' ∨ u = 'h' ∨ u = 'd') ∧ ds ≠ [] ∧
          ds.all Char.isDigit = true then
          some (digitsToNat ds, u) else none) = some (digitsToNat ds, u)
      rw [if_pos ⟨hu, hne, hall⟩]
    have hcond : ¬((ds ++ [u]) ≠ [] ∧ (ds ++ [u]).all Char.isDigit = true) := by
      intro hcon
      rw [hallf] at hcon
      exact absurd hcon.2 (by simp)
    simp only [parseTimespan]
    rw [if_neg hcond, hmatch]
  · simp only [parseTimespan]
    rw [if_neg hsh, hm]

/-- Witness for C7 (amended): `parseTimespan("15m") = 900`. -/
theorem c7_parse_timespan_witness :
    parseTimespan (.str (("15m").toList)) = .ok 900 := by
  have h := c7_parse_timespan_amended.2.2.1 [ '1', '5'] 'm'
    (by decide) (by decide) (by decide)
  have h2 : parseTimespan (.str (("15m").toList)) =
      .ok ((digitsToNat [ '1', '5'] : Int) * unitMul 'm') := h
  rw [h2]
  decide

/-- Counterexample to C6 as stated: `deriveRefreshLifetime("1h")` is `"1d"`,
not `"30h"` — 108000 seconds is at least 86400, so the code renders whole
days (with truncation), not hours. -/
theorem c6_one_hour_cex :
    calculateRefreshTokenExpiration (("1h").toList) = .ok (("1d").toList) ∧
    calculateRefreshTokenExpiration (("1h").toList) ≠ .ok (("30h").toList) := by
  constructor
  · decide
  · decide

/-- Claim C6 (amended): for every spec the timespan parser accepts,
`calculateRefreshTokenExpiration` multiplies the seconds by 30, clamps to a
1800-second floor, and renders whole days when the result is ≥ 86400 s, else
whole hours when ≥ 3600 s, else whole minutes; in particular
`"1h" ↦ "1d"` (not `"30h"`), `"5s" ↦ "30m"`, and `"1d" ↦ "30d"`. -/
theorem c6_refresh_lifetime_amended :
    (∀ s : JStr, ∀ n : Int, parseExpiresIn s = .ok n →
      calculateRefreshTokenExpiration s = .ok (
        if max (n * 30) 1800 ≥ 86400 then
          natToJStr ((max (n * 30) 1800).toNat / 86400) ++ [ 'd']
        else if max (n * 30) 1800 ≥ 3600 then
          natToJStr ((max (n * 30) 1800).toNat / 3600) ++ [ 'h']
        else natToJStr ((max (n * 30) 1800).toNat / 60) ++ [ 'm'])) ∧
    calculateRefreshTokenExpiration (("1h").toList) = .ok (("1d").toList) ∧
    calculateRefreshTokenExpiration (("5s").toList) = .ok (("30m").toList) ∧
    calculateRefreshTokenExpiration (("1d").toList) = .ok (("30d").toList) := by
  refine ⟨fun s n h => ?_, by decide, by decide, by decide⟩
  unfold calculateRefreshTokenExpiration
  rw [show parseExpiresIn s = .ok n from h]
  show (if max (n * 30) 1800 ≥ 86400 then
      Except.ok (natToJStr ((max (n * 30) 1800).toNat / 86400) ++ [ 'd'])
    else if max (n * 30) 1800 ≥ 3600 then
      Except.ok (natToJStr ((max (n * 30) 1800).toNat / 3600) ++ [ 'h'])
    else Except.ok (natToJStr ((max (n * 30) 1800).toNat / 60) ++ [ 'm'])) =
    Except.ok (if max (n * 30) 1800 ≥ 86400 then
      natToJStr ((max (n * 30) 1800).toNat / 86400) ++ [ 'd']
    else if max (n * 30) 1800 ≥ 3600 then
      natToJStr ((max (n * 30) 1800).toNat / 3600) ++ [ 'h']
    else natToJStr ((max (n * 30) 1800).toNat / 60) ++ [ 'm'])
  by_cases h1 : max (n * 30) 1800 ≥ 86400
  · rw [if_pos h1, if_pos h1]
  · rw [if_neg h1, if_neg h1]
    by_cases h2 : max (n * 30) 1800 ≥ 3600
    · rw [if_pos h2, if_pos h2]
    · rw [if_neg h2, if_neg h2]

/-- Witness for C6 (amended): `deriveRefreshLifetime("2h") = "2d"`. -/
theorem c6_refresh_lifetime_witness :
    calculateRefreshTokenExpiration (("2h").toList) = .ok (("2d").toList) := by
  have h := c6_refresh_lifetime_amended.1 (("2h").toList) 7200 (by decide)
  rw [h]
  decide

/-- Counterexample to C8 as stated: decoding the string `"ab#c"`, which
contains the out-of-alphabet character `#`, does not fail — `base64urlDecode`
is total and returns the bytes of `"abc"`. -/
theorem c8_invalid_alphabet_cex :
    base64urlDecode (("ab#c").toList) = [105, 183] ∧
    base64urlDecode (("ab#c").toList) = base64urlDecode (("abc").toList) := by
  constructor
  · decide
  · decide

theorem urlD_ne_pad {c : Char} (h : c ≠ '=') : urlD c ≠ '=' := by
  unfold urlD
  by_cases h1 : c = '-'
  · simp [h1]
  · by_cases h2 : c = '_'
    · simp [h1, h2]
    · simp [h1, h2, h]

theorem takeWhile_pad_irrelevant (k : Nat) : ∀ s : JStr,
    List.takeWhile (fun c => decide (c ≠ '=')) (s ++ List.replicate k '=') =
      List.takeWhile (fun c => decide (c ≠ '=')) s := by
  intro s
  induction s with
  | nil =>
    cases k with
    | zero => rfl
    | succ m => simp [List.replicate, List.takeWhile]
  | cons c rest ih =>
    simp only [ne_eq, decide_not] at ih
    by_cases hc : c = '='
    · simp [List.takeWhile, hc]
    · simp [List.takeWhile, hc, ih]

theorem filterMap_takeWhile_skip {x : Char} (hx : charToSix x = none)
    (hpad : x ≠ '=') : ∀ a b : JStr,
    List.filterMap charToSix
        (List.takeWhile (fun c => decide (c ≠ '=')) (a ++ x :: b)) =
      List.filterMap charToSix
        (List.takeWhile (fun c => decide (c ≠ '=')) (a ++ b)) := by
  intro a b
  induction a with
  | nil =>
    simp [List.takeWhile, hpad, List.filterMap, hx]
  | cons c rest ih =>
    simp only [ne_eq, decide_not] at ih
    by_cases hc : c = '='
    · simp [List.takeWhile, hc]
    · cases hcc : charToSix c <;>
        simp [List.takeWhile, hc, List.filterMap, hcc, ih]

/-- The decode pipeline in terms of the composite replacement `urlD`:
the padding reconstruction is immaterial because data stops at the first
`=` anyway. -/
theorem base64urlDecode_norm (s : JStr) :
    base64urlDecode s = decodeSixes (List.filterMap charToSix
      (List.takeWhile (fun c => decide (c ≠ '=')) (s.map urlD))) := by
  unfold base64urlDecode nodeB64Decode
  simp only [List.map_map]
  rw [show List.map ((fun c => if c = '_' then '/' else c) ∘
      (fun c => if c = '-' then '+' else c)) s = s.map urlD from
    List.map_congr_left (fun c _ => urlD_comp c)]
  by_cases hpad : 4 - (s.map urlD).length % 4 ≠ 4
  · rw [if_pos hpad, takeWhile_pad_irrelevant]
  · rw [if_neg hpad]

/-- Claim C8 (amended): `base64urlDecode` never fails. A character outside
the base64url alphabet (other than `=`) anywhere in the input is simply
ignored: the decode result equals that of the input with the character
removed (as in the counterexample, where `"ab#c"` decodes to the bytes of
`"abc"`), rather than a decode error being raised. -/
theorem c8_decode_lenient_amended (pre post : JStr) (c : Char)
    (hc : charToSix (urlD c) = none) (hpad : c ≠ '=') :
    base64urlDecode (pre ++ c :: post) = base64urlDecode (pre ++ post) := by
  rw [base64urlDecode_norm, base64urlDecode_norm]
  rw [List.map_append, List.map_cons, List.map_append]
  rw [filterMap_takeWhile_skip hc (urlD_ne_pad hpad)]

/-- Witness for C8 (amended): inserting `#` into `"abc"` leaves the decode
result unchanged. -/
theorem c8_decode_lenient_witness :
    base64urlDecode (("ab").toList ++ '#' :: (("c").toList)) =
      base64urlDecode (("ab").toList ++ ("c").toList) :=
  c8_decode_lenient_amended (("ab").toList) (("c").toList) '#'
    (by decide) (by decide)

/-! ### Password hasher lemmas -/

theorem hexVal_hexDigit {d : Nat} (h : d < 16) : hexVal (hexDigit d) = some d := by
  have : ∀ m : Fin 16, hexVal (hexDigit m.val) = some m.val := by decide
  exact this ⟨d, h⟩

theorem hexDigit_ne_colon {d : Nat} (h : d < 16) : hexDigit d ≠ ':' := by
  have : ∀ m : Fin 16, hexDigit m.val ≠ ':' := by decide
  exact this ⟨d, h⟩

theorem bytesToHex_no_colon {bs : List Nat} : ':' ∉ bytesToHex bs := by
  intro hmem
  unfold bytesToHex at hmem
  rcases List.mem_flatten.1 hmem with ⟨l, hl, hcl⟩
  rcases List.mem_map.1 hl with ⟨b, _, rfl⟩
  simp only [List.mem_cons, List.not_mem_nil, or_false] at hcl
  rcases hcl with h | h
  · exact hexDigit_ne_colon (by omega) h.symm
  · exact hexDigit_ne_colon (by omega) h.symm

theorem bytesToHex_cons (b : Nat) (rest : List Nat) :
    bytesToHex (b :: rest) =
      hexDigit (b / 16 % 16) :: hexDigit (b % 16) :: bytesToHex rest := rfl

theorem hexParse_bytesToHex {bs : List Nat} (h : ∀ b ∈ bs, b < 256) :
    hexParse (bytesToHex bs) = bs := by
  induction bs with
  | nil => rfl
  | cons b rest ih =>
    have hb : b < 256 := h b (by simp)
    have hrest : ∀ x ∈ rest, x < 256 := fun x hx => h x (by simp [hx])
    rw [bytesToHex_cons]
    unfold hexParse
    rw [hexVal_hexDigit (by omega), hexVal_hexDigit (by omega)]
    simp [ih hrest]
    omega

theorem bytesToHex_ne_nil {bs : List Nat} (h : bs ≠ []) : bytesToHex bs ≠ [] := by
  cases bs with
  | nil => exact absurd rfl h
  | cons b rest => rw [bytesToHex_cons]; simp

/-- Claim C9: for every non-empty password and every 16-byte random salt,
`verifyPassword(password, hashPassword(password))` is true: the stored value
is `hex(salt) + ":" + hex(key)`, the verifier splits it, re-derives the key
with the same salt and cost parameters, and the byte-wise comparison
succeeds. `scryptF` is the deterministic scrypt parameter, assumed to return
`keylen` bytes. -/
theorem c9_password_round_trip (scryptF : JStr → JStr → Nat → List Nat)
    (password : JStr) (saltBytes : List Nat)
    (hbytes : ∀ p s k, ∀ b ∈ scryptF p s k, b < 256)
    (hlen : ∀ p s k, (scryptF p s k).length = k)
    (hsalt : saltBytes.length = 16) (hpw : password ≠ []) :
    verifyPassword scryptF password (hashPassword scryptF saltBytes password) = true := by
  unfold hashPassword verifyPassword
  have hsne : bytesToHex saltBytes ≠ [] :=
    bytesToHex_ne_nil (by intro hc; rw [hc] at hsalt; simp at hsalt)
  have hkne : bytesToHex (scryptF password (bytesToHex saltBytes) SCRYPT_KEYLEN) ≠ [] := by
    apply bytesToHex_ne_nil
    intro hc
    have := hlen password (bytesToHex saltBytes) SCRYPT_KEYLEN
    rw [hc] at this
    simp [SCRYPT_KEYLEN] at this
  have hsplit : splitOn ':'
      (bytesToHex saltBytes ++ ':' ::
        bytesToHex (scryptF password (bytesToHex saltBytes) SCRYPT_KEYLEN)) =
      [bytesToHex saltBytes,
       bytesToHex (scryptF password (bytesToHex saltBytes) SCRYPT_KEYLEN)] := by
    rw [splitOn_append bytesToHex_no_colon, splitOn_no_sep bytesToHex_no_colon]
  rw [hsplit]
  simp only [List.getD]
  have hparse : hexParse
      (bytesToHex (scryptF password (bytesToHex saltBytes) SCRYPT_KEYLEN)) =
      scryptF password (bytesToHex saltBytes) SCRYPT_KEYLEN :=
    hexParse_bytesToHex (hbytes password (bytesToHex saltBytes) SCRYPT_KEYLEN)
  simp [hsne, hkne, hparse]

/-- Witness for C9: the password `"pw"` with the all-zero 16-byte salt and a
concrete scrypt instance verifies against its own stored hash. -/
theorem c9_password_round_trip_witness :
    verifyPassword wScrypt (("pw").toList)
      (hashPassword wScrypt (List.replicate 16 0) (("pw").toList)) = true :=
  c9_password_round_trip wScrypt (("pw").toList) (List.replicate 16 0)
    (fun p s k b hb => by
      have hb7 : b = 7 := List.eq_of_mem_replicate (by simpa [wScrypt] using hb)
      omega)
    (fun p s k => by simp [wScrypt])
    (by simp) (by decide)

/-- Claim C4: the code violates the claim. The store record expired at
2026-01-01 00:00:00 UTC, strictly before the validation instant
2026-01-01 01:00:00 UTC (both calendar-valid), yet `validateRefreshToken`
returns the user info instead of null: the stored `toISOString()` text
`"2026-01-01T00:00:00.000Z"` compares greater than the sqlite
`datetime('now')` text `"2026-01-01 01:00:00"` under byte-wise TEXT order
(`'T'` = 0x54 sorts above `' '` = 0x20 at offset 10), so the
`expires_at > datetime('now')` filter keeps every record whose expiry UTC
date is today, hours after it has passed. -/
theorem c4_expired_record_still_validates :
    c4ExpiryDT.valid ∧ c4NowDT.valid ∧ c4ExpiryDT.instLt c4NowDT ∧
    (c4Store.map TokenRecord.expiresAt = [toISOString c4ExpiryDT]) ∧
    validateRefreshToken c4R 0 c4NowDT c4Store c4Tok = some (1, none) := by
  refine ⟨by decide, by decide, by decide, by decide, by decide⟩

/-- Counterexample to C5 as stated: a rotation performed in the same second
the old token was issued re-creates the identical token (`iat`, `exp` and
every other claim coincide, so the deterministic signing pipeline emits the
same string, which hashes to the same stored digest). The rotation succeeds,
yet `validate(old)` afterwards returns the user info, not null. -/
theorem c5_same_second_rotation_cex :
    rotateRefreshToken c5R 0 c5NowDT c5Store c5Tok 1 (("1h").toList) =
      .ok (some (c5Tok, c5Store2)) ∧
    validateRefreshToken c5R 0 c5NowDT c5Store2 c5Tok =
      some (1, some (.str (("u").toList))) := by
  refine ⟨by decide, by decide⟩

/-! ### sqlite TEXT-order lemmas for the date renderings -/

theorem strLtB_cons_same (c : Char) (r1 r2 : JStr) :
    strLtB (c :: r1) (c :: r2) = strLtB r1 r2 := by
  show (if c.toNat < c.toNat then true
    else if c.toNat < c.toNat then false else strLtB r1 r2) = strLtB r1 r2
  rw [if_neg (lt_irrefl _), if_neg (lt_irrefl _)]

theorem strLtB_append_eq (p : JStr) : ∀ x z : JStr,
    strLtB (p ++ x) (p ++ z) = strLtB x z := by
  induction p with
  | nil => intro x z; rfl
  | cons c rest ih =>
    intro x z
    rw [List.cons_append, List.cons_append, strLtB_cons_same]
    exact ih x z

theorem strLtB_append_lt : ∀ p q : JStr, p.length = q.length →
    strLtB p q = true → ∀ x z : JStr, strLtB (p ++ x) (q ++ z) = true := by
  intro p
  induction p with
  | nil =>
    intro q hlen h
    cases q with
    | nil => cases h
    | cons c r => cases hlen
  | cons c rest ih =>
    intro q hlen h
    cases q with
    | nil => cases hlen
    | cons d r =>
      intro x z
      by_cases hcd : c.toNat < d.toNat
      · simp [strLtB, hcd]
      · by_cases hdc : d.toNat < c.toNat
        · rw [show strLtB (c :: rest) (d :: r) = false by
            simp [strLtB, hcd, hdc]] at h
          cases h
        · have hrest : strLtB rest r = true := by
            rw [show strLtB (c :: rest) (d :: r) = strLtB rest r by
              simp [strLtB, hcd, hdc]] at h
            exact h
          have hlen2 : rest.length = r.length := by
            simpa using hlen
          simp [strLtB, hcd, hdc, ih r hlen2 hrest x z]

theorem padN_length : ∀ l y : Nat, (padN l y).length = l := by
  intro l
  induction l with
  | zero => intro y; rfl
  | succ n ih => intro y; simp [padN, ih]

theorem digitChar_toNat {d : Nat} (h : d < 10) :
    (digitChar d).toNat = 48 + d := by
  have : ∀ m : Fin 10, (digitChar m.val).toNat = 48 + m.val := by decide
  exact this ⟨d, h⟩

theorem padN_mod : ∀ l y : Nat, padN l (y % 10 ^ l) = padN l y := by
  intro l
  induction l with
  | zero => intro y; rfl
  | succ n ih =>
    intro y
    unfold padN
    congr 1
    · congr 1
      rw [pow_succ, Nat.mod_mul_right_div_self]
      exact Nat.mod_mod_of_dvd _ dvd_rfl
    · calc padN n (y % 10 ^ (n + 1))
          = padN n ((y % 10 ^ (n + 1)) % 10 ^ n) := (ih _).symm
        _ = padN n (y % 10 ^ n) := by
            rw [Nat.mod_mod_of_dvd _ (pow_dvd_pow 10 (Nat.le_succ n))]
        _ = padN n y := ih y

theorem padN_lt : ∀ l y1 y2 : Nat, y1 < y2 → y2 < 10 ^ l →
    strLtB (padN l y1) (padN l y2) = true := by
  intro l
  induction l with
  | zero =>
    intro y1 y2 h hb
    simp at hb
    omega
  | succ n ih =>
    intro y1 y2 h hb
    have hd2 : y2 / 10 ^ n < 10 := by
      rw [Nat.div_lt_iff_lt_mul (Nat.pos_pow_of_pos n (by norm_num))]
      calc y2 < 10 ^ (n + 1) := hb
        _ = 10 * 10 ^ n := by ring
        _ ≤ 10 * 10 ^ n := le_rfl
    have hd1 : y1 / 10 ^ n < 10 := by
      have : y1 / 10 ^ n ≤ y2 / 10 ^ n := Nat.div_le_div_right (le_of_lt h)
      omega
    have hm1 : y1 / 10 ^ n % 10 = y1 / 10 ^ n := Nat.mod_eq_of_lt hd1
    have hm2 : y2 / 10 ^ n % 10 = y2 / 10 ^ n := Nat.mod_eq_of_lt hd2
    rcases Nat.lt_trichotomy (y1 / 10 ^ n) (y2 / 10 ^ n) with hc | hc | hc
    · have ht1 : (digitChar (y1 / 10 ^ n % 10)).toNat = 48 + y1 / 10 ^ n := by
        rw [hm1]; exact digitChar_toNat hd1
      have ht2 : (digitChar (y2 / 10 ^ n % 10)).toNat = 48 + y2 / 10 ^ n := by
        rw [hm2]; exact digitChar_toNat hd2
      simp [padN, strLtB, ht1, ht2]
      omega
    · have heq : digitChar (y1 / 10 ^ n % 10) = digitChar (y2 / 10 ^ n % 10) := by
        rw [hm1, hm2, hc]
      have hlow : y1 % 10 ^ n < y2 % 10 ^ n := by
        have e1 := Nat.div_add_mod y1 (10 ^ n)
        have e2 := Nat.div_add_mod y2 (10 ^ n)
        rw [hc] at e1
        omega
      have hlow2 : y2 % 10 ^ n < 10 ^ n :=
        Nat.mod_lt _ (Nat.pos_pow_of_pos n (by norm_num))
      have hrec := ih (y1 % 10 ^ n) (y2 % 10 ^ n) hlow hlow2
      have hside1 : padN n (y1 % 10 ^ n) = padN n y1 := padN_mod n y1
      have hside2 : padN n (y2 % 10 ^ n) = padN n y2 := padN_mod n y2
      rw [hside1, hside2] at hrec
      simp [padN, heq, strLtB_cons_same, hrec]
    · have : y2 / 10 ^ n ≤ y1 / 10 ^ n := le_of_lt hc
      have : y1 / 10 ^ n ≤ y2 / 10 ^ n := Nat.div_le_div_right (le_of_lt h)
      omega

/-- Both date renderings compare by calendar date first: a strictly earlier
date gives a strictly smaller string, whatever follows the 10-character
prefix. -/
theorem dateStr_lt_append {a b : DateTime} (h : a.dateLt b)
    (hya : a.year < 10000) (hyb : b.year < 10000)
    (hma : a.month < 100) (hmb : b.month < 100)
    (hda : a.day < 100) (hdb : b.day < 100) (x z : JStr) :
    strLtB (dateStr a ++ x) (dateStr b ++ z) = true := by
  have hp4 : (10:Nat) ^ 4 = 10000 := by norm_num
  have hp2 : (10:Nat) ^ 2 = 100 := by norm_num
  unfold dateStr
  simp only [List.append_assoc, List.cons_append, List.nil_append]
  rcases h with hy | ⟨hy, hm | ⟨hm, hd⟩⟩
  · exact strLtB_append_lt _ _ (by rw [padN_length, padN_length])
      (padN_lt 4 a.year b.year hy (hp4 ▸ hyb)) _ _
  · rw [hy, strLtB_append_eq, strLtB_cons_same]
    exact strLtB_append_lt _ _ (by rw [padN_length, padN_length])
      (padN_lt 2 a.month b.month hm (hp2 ▸ hmb)) _ _
  · rw [hy, strLtB_append_eq, strLtB_cons_same, hm, strLtB_append_eq,
      strLtB_cons_same]
    exact strLtB_append_lt _ _ (by rw [padN_length, padN_length])
      (padN_lt 2 a.day b.day hd (hp2 ▸ hdb)) _ _

/-! ### Calendar lemmas -/

theorem daysInMonth_pos (y m : Nat) : 1 ≤ daysInMonth y m := by
  unfold daysInMonth
  split_ifs <;> omega

theorem daysInMonth_le31 (y m : Nat) : daysInMonth y m ≤ 31 := by
  unfold daysInMonth
  split_ifs <;> omega

theorem addOneDay_valid {d : DateTime} (h : d.valid) : d.addOneDay.valid := by
  unfold DateTime.valid at h
  unfold DateTime.addOneDay DateTime.valid
  have hp1 := daysInMonth_pos d.year (d.month + 1)
  have hp2 := daysInMonth_pos (d.year + 1) 1
  split_ifs with h1 h2 <;> dsimp only <;> omega

theorem addOneDay_dateLt {d : DateTime} (h : d.valid) :
    d.dateLt d.addOneDay := by
  unfold DateTime.addOneDay DateTime.dateLt
  split_ifs with h1 h2 <;> dsimp only <;> omega

theorem dateLt_trans {a b c : DateTime} (h1 : a.dateLt b) (h2 : b.dateLt c) :
    a.dateLt c := by
  unfold DateTime.dateLt at *
  omega

theorem dateLt_year_le {a b : DateTime} (h : a.dateLt b) : a.year ≤ b.year := by
  unfold DateTime.dateLt at h
  omega

theorem addDays_valid {d : DateTime} (h : d.valid) :
    ∀ n, (d.addDays n).valid := by
  intro n
  induction n with
  | zero => exact h
  | succ m ih => exact addOneDay_valid ih

theorem addDays_dateLt {d : DateTime} (h : d.valid) :
    ∀ n, 1 ≤ n → d.dateLt (d.addDays n) := by
  intro n
  induction n with
  | zero => intro hc; omega
  | succ m ih =>
    intro _
    rcases Nat.eq_zero_or_pos m with rfl | hm
    · exact addOneDay_dateLt h
    · exact dateLt_trans (ih hm) (addOneDay_dateLt (addDays_valid h m))

/-! ### Refresh-lifetime re-parse lemmas -/

theorem unit_d_val : unitMul 'd' = 86400 := by decide

theorem unit_h_val : unitMul 'h' = 3600 := by decide

theorem unit_m_val : unitMul 'm' = 60 := by decide

/-- Whatever `calculateRefreshTokenExpiration` renders is a non-empty spec
the timespan parser re-reads as at least 1800 seconds. -/
theorem calcRTE_parse {s r : JStr}
    (h : calculateRefreshTokenExpiration s = .ok r) :
    r ≠ [] ∧ ∃ d : Int, parseTimespan (.str r) = .ok d ∧ 1800 ≤ d := by
  unfold calculateRefreshTokenExpiration at h
  cases hp : parseExpiresIn s with
  | error e =>
    rw [hp] at h
    cases h
  | ok n =>
    rw [hp] at h
    by_cases h1 : max (n * 30) 1800 ≥ 86400
    · have hr : r = natToJStr ((max (n * 30) 1800).toNat / 86400) ++ [ 'd'] := by
        have h2 : (Except.ok
            (natToJStr ((max (n * 30) 1800).toNat / 86400) ++ [ 'd']) :
            Except JwtError JStr) = .ok r := by
          rw [← h]
          show _ = (if max (n * 30) 1800 ≥ 86400 then _ else _)
          rw [if_pos h1]
          rfl
        injection h2 with h3
        exact h3.symm
      subst hr
      refine ⟨by simp, (((max (n * 30) 1800).toNat / 86400 : Nat) : Int) * unitMul 'd', ?_, ?_⟩
      · exact parse_render_unit _ 'd' (by simp)
      · rw [unit_d_val]
        have hk : 1 ≤ (max (n * 30) 1800).toNat / 86400 := by omega
        have : (1 : Int) ≤ (((max (n * 30) 1800).toNat / 86400 : Nat) : Int) := by
          exact_mod_cast hk
        nlinarith
    · by_cases h2 : max (n * 30) 1800 ≥ 3600
      · have hr : r = natToJStr ((max (n * 30) 1800).toNat / 3600) ++ [ 'h'] := by
          have h3 : (Except.ok
              (natToJStr ((max (n * 30) 1800).toNat / 3600) ++ [ 'h']) :
              Except JwtError JStr) = .ok r := by
            rw [← h]
            show _ = (if max (n * 30) 1800 ≥ 86400 then _
              else if max (n * 30) 1800 ≥ 3600 then _ else _)
            rw [if_neg h1, if_pos h2]
            rfl
          injection h3 with h4
          exact h4.symm
        subst hr
        refine ⟨by simp, (((max (n * 30) 1800).toNat / 3600 : Nat) : Int) * unitMul 'h', ?_, ?_⟩
        · exact parse_render_unit _ 'h' (by simp)
        · rw [unit_h_val]
          have hk : 1 ≤ (max (n * 30) 1800).toNat / 3600 := by omega
          have : (1 : Int) ≤ (((max (n * 30) 1800).toNat / 3600 : Nat) : Int) := by
            exact_mod_cast hk
          nlinarith
      · have hr : r = natToJStr ((max (n * 30) 1800).toNat / 60) ++ [ 'm'] := by
          have h3 : (Except.ok
              (natToJStr ((max (n * 30) 1800).toNat / 60) ++ [ 'm']) :
              Except JwtError JStr) = .ok r := by
            rw [← h]
            show _ = (if max (n * 30) 1800 ≥ 86400 then _
              else if max (n * 30) 1800 ≥ 3600 then _ else _)
            rw [if_neg h1, if_neg h2]
            rfl
          injection h3 with h4
          exact h4.symm
        subst hr
        refine ⟨by simp, (((max (n * 30) 1800).toNat / 60 : Nat) : Int) * unitMul 'm', ?_, ?_⟩
        · exact parse_render_unit _ 'm' (by simp)
        · rw [unit_m_val]
          have hk : 30 ≤ (max (n * 30) 1800).toNat / 60 := by omega
          have : (30 : Int) ≤ (((max (n * 30) 1800).toNat / 60 : Nat) : Int) := by
            exact_mod_cast hk
          nlinarith

/-- `buildPayload` on the refresh payload under the refresh sign options. -/
theorem buildPayload_refresh (w : Int) (userId : Int) (uv : JVal) (r : JStr)
    (d : Int) (hne : r ≠ []) (hd : parseTimespan (.str r) = .ok d) :
    buildPayload w (refreshPayload userId uv) (refreshSignOptions r) =
      .ok (refreshBuiltPayload w userId uv d) := by
  unfold buildPayload refreshSignOptions refreshBuiltPayload
  have hiat : jget [ 'i', 'a', 't']
      (jset [ 'i', 's', 's']
        (.str [ 'j', 'c', 'o', 'd', 'e', 'r', '-', 'r', 'e', 'f', 'r', 'e', 's', 'h'])
        (refreshPayload userId uv)) = none := by
    rw [jget_jset_other (by decide)]
    rfl
  simp [truthyTs, hne, hd, hiat, exc_bind_ok, exc_pure]

theorem jget_type_refreshBuilt (w userId : Int) (uv : JVal) (d : Int) :
    jget (("type").toList) (refreshBuiltPayload w userId uv d) =
      some (.str (("refresh").toList)) := rfl

theorem jget_userId_refreshBuilt (w userId : Int) (uv : JVal) (d : Int) :
    jget (("userId").toList) (refreshBuiltPayload w userId uv d) =
      some (.num userId) := rfl

theorem jget_username_refreshBuilt (w userId : Int) (uv : JVal) (d : Int) :
    jget (("username").toList) (refreshBuiltPayload w userId uv d) =
      some uv := rfl

theorem jget_nbf_refreshBuilt (w userId : Int) (uv : JVal) (d : Int) :
    jget (("nbf").toList) (refreshBuiltPayload w userId uv d) = none := rfl

theorem jget_exp_refreshBuilt (w userId : Int) (uv : JVal) (d : Int) :
    jget (("exp").toList) (refreshBuiltPayload w userId uv d) =
      some (.num (w + d)) := rfl

theorem find?_append_none {α : Type} (p : α → Bool) {l1 : List α}
    (h : ∀ x ∈ l1, p x = false) (l2 : List α) :
    (l1 ++ l2).find? p = l2.find? p := by
  induction l1 with
  | nil => rfl
  | cons a rest ih =>
    have ha : p a = false := h a (List.mem_cons_self a rest)
    rw [List.cons_append, List.find?_cons_of_neg _ (by simp [ha])]
    exact ih (fun x hx => h x (List.mem_cons_of_mem a hx))

/-- Claim C5 (amended): after `rotate(old, userId, accessExp)` succeeds,
`validate(new)` returns the rotated user's `{userId, username}`; and
`validate(old)` returns null provided the re-issued token hashes differently
from the old one (the deterministic pipeline re-creates the identical token
when rotation happens in the very second the old token was issued — the
counterexample — in which case the old token remains valid). Stated under
the same codec assumptions as the round-trip claim, the store holding no
foreign record of the new token's hash (the store's unique hash constraint),
and a calendar-valid clock below year 10000. -/
theorem c5_rotation_invalidation_amended
    (R : RefreshEnv) (wallSecs : Int) (nowDT : DateTime)
    (store store2 : TokenStore) (oldToken newToken : JStr)
    (userId : Int) (accessExp rSpec : JStr) (uv : JVal) (rSecs : Int)
    (hval : validateRefreshToken R wallSecs nowDT store oldToken =
      some (userId, some uv))
    (hcalc : calculateRefreshTokenExpiration accessExp = .ok rSpec)
    (hrs : parseExpiresIn rSpec = .ok rSecs)
    (hrot : rotateRefreshToken R wallSecs nowDT store oldToken userId accessExp =
      .ok (some (newToken, store2)))
    (hHb : ∀ b ∈ R.jwt.jsonHeaderBytes
      (buildHeader .HS256 (refreshSignOptions rSpec)), b < 256)
    (hH : R.jwt.parseHeaderBytes (R.jwt.jsonHeaderBytes
        (buildHeader .HS256 (refreshSignOptions rSpec))) =
      .ok (buildHeader .HS256 (refreshSignOptions rSpec)))
    (hPb : ∀ b ∈ R.jwt.jsonPayloadBytes
      (refreshBuiltPayload wallSecs userId uv rSecs), b < 256)
    (hP : R.jwt.parsePayloadBytes (R.jwt.jsonPayloadBytes
        (refreshBuiltPayload wallSecs userId uv rSecs)) =
      .ok (refreshBuiltPayload wallSecs userId uv rSecs))
    (hdiff : R.sha256hex newToken ≠ R.sha256hex oldToken)
    (hnv : nowDT.valid) (hny : nowDT.year < 10000)
    (hay : (nowDT.addDays ((rSecs.toNat + 86399) / 86400)).year < 10000)
    (huniq : ∀ rec ∈ store, rec.tokenHash ≠ R.sha256hex newToken) :
    validateRefreshToken R wallSecs nowDT store2 oldToken = none ∧
    validateRefreshToken R wallSecs nowDT store2 newToken =
      some (userId, some uv) := by
  obtain ⟨hneR, d0, hd0, hd0ge⟩ := calcRTE_parse hcalc
  have hrs2 : parseTimespan (.str rSpec) = .ok rSecs := hrs
  have hd0eq : d0 = rSecs := by
    have h9 := hd0.symm.trans hrs2
    injection h9
  rw [hd0eq] at hd0ge
  unfold rotateRefreshToken at hrot
  rw [hval] at hrot
  simp only [ne_eq, not_true_eq_false, if_false, reduceIte] at hrot
  unfold generateRefreshToken at hrot
  by_cases hsec0 : R.refreshSecret = []
  · simp [hsec0, exc_throw, exc_bind_err] at hrot
  rw [if_neg hsec0] at hrot
  simp only [exc_pure, exc_bind_ok] at hrot
  rw [hcalc] at hrot
  simp only [exc_bind_ok, Option.getD_some] at hrot
  have hbp := buildPayload_refresh wallSecs userId uv rSpec rSecs hneR hrs2
  have hsign := sign_eq R.jwt wallSecs (refreshPayload userId uv)
    R.refreshSecret (refreshSignOptions rSpec) _ hsec0 hbp
  have halg : (refreshSignOptions rSpec).algorithm.getD .HS256 = .HS256 := rfl
  rw [halg] at hsign
  rw [hsign] at hrot
  simp only [exc_bind_ok] at hrot
  rw [hrs] at hrot
  simp only [exc_bind_ok, exc_pure] at hrot
  injection hrot with hrot2
  injection hrot2 with hrot3
  rw [Prod.mk.injEq] at hrot3
  obtain ⟨hTok, hSt⟩ := hrot3
  have hStN : store2 = storeRefreshToken R nowDT
      (revokeRefreshToken R store oldToken).1 userId newToken
      ((rSecs.toNat + 86399) / 86400) := by
    rw [← hSt, hTok]
  subst hStN
  constructor
  · -- validate(old) on the rotated store is null: its hash is gone
    unfold validateRefreshToken
    rw [if_neg hsec0]
    cases hv : verify R.jwt wallSecs oldToken R.refreshSecret {} with
    | error e => rfl
    | ok p =>
      dsimp only
      by_cases hty : jget (("type").toList) p ≠ some (.str (("refresh").toList))
      · rw [if_pos hty]
      · rw [if_neg hty]
        have hfind : (storeRefreshToken R nowDT
            (revokeRefreshToken R store oldToken).1 userId newToken
            ((rSecs.toNat + 86399) / 86400)).find?
            (validRowFor (hashRefreshToken R oldToken) nowDT) = none := by
          apply List.find?_eq_none.mpr
          intro rec hrec
          unfold storeRefreshToken at hrec
          rcases List.mem_append.1 hrec with hmem | hmem
          · have hmem2 : ¬ rec.tokenHash = hashRefreshToken R oldToken := by
              have h7 := hmem
              simp only [revokeRefreshToken, List.mem_filter] at h7
              simpa using h7.2
            simp [validRowFor, hmem2]
          · have hrec2 : rec = ⟨userId, hashRefreshToken R newToken,
                toISOString (nowDT.addDays ((rSecs.toNat + 86399) / 86400)),
                toISOString nowDT⟩ := by
              simpa using hmem
            rw [hrec2]
            simp [validRowFor, hashRefreshToken, hdiff]
        rw [hfind]
  · -- validate(new) returns the rotated user's info
    have hhdr := buildHeader_basic .HS256 (refreshSignOptions rSpec) rfl rfl
    have halgget : jget (("alg").toList)
        (buildHeader .HS256 (refreshSignOptions rSpec)) =
        some (JVal.str (algStr .HS256)) := by
      rw [hhdr]
      simp [jget]
    have hparse := parseJwtToken_eq R.jwt
      (R.jwt.jsonHeaderBytes (buildHeader .HS256 (refreshSignOptions rSpec)))
      (R.jwt.jsonPayloadBytes (refreshBuiltPayload wallSecs userId uv rSecs))
      (base64urlEncode (R.jwt.hmacBytes (shaName .HS256) R.refreshSecret
        (base64urlEncode (R.jwt.jsonHeaderBytes
          (buildHeader .HS256 (refreshSignOptions rSpec))) ++
         '.' :: base64urlEncode (R.jwt.jsonPayloadBytes
          (refreshBuiltPayload wallSecs userId uv rSecs)))))
      _ _ hHb hPb (base64urlEncode_no_dot _) hH hP
    have hvtc : validateTimeClaims wallSecs
        (refreshBuiltPayload wallSecs userId uv rSecs) {} = .ok () := by
      refine validateTimeClaims_ok wallSecs wallSecs
        (refreshBuiltPayload wallSecs userId uv rSecs) {} rfl (Or.inl rfl) rfl
        (jget_nbf_refreshBuilt wallSecs userId uv rSecs) ?_
      intro v hv
      rw [jget_exp_refreshBuilt] at hv
      refine ⟨wallSecs + rSecs, ?_, by omega⟩
      injection hv with hv2
      exact hv2.symm
    have hvsc : validateStandardClaims
        (refreshBuiltPayload wallSecs userId uv rSecs) {} = .ok () :=
      validateStandardClaims_ok _ _ (Or.inl rfl) rfl rfl
    have hverify : verify R.jwt wallSecs
        (base64urlEncode (R.jwt.jsonHeaderBytes
          (buildHeader .HS256 (refreshSignOptions rSpec))) ++
         '.' :: (base64urlEncode (R.jwt.jsonPayloadBytes
            (refreshBuiltPayload wallSecs userId uv rSecs)) ++
         '.' :: base64urlEncode (R.jwt.hmacBytes (shaName .HS256) R.refreshSecret
          (base64urlEncode (R.jwt.jsonHeaderBytes
            (buildHeader .HS256 (refreshSignOptions rSpec))) ++
           '.' :: base64urlEncode (R.jwt.jsonPayloadBytes
            (refreshBuiltPayload wallSecs userId uv rSecs))))))
        R.refreshSecret {} = .ok (refreshBuiltPayload wallSecs userId uv rSecs) := by
      unfold verify
      rw [hparse]
      have halgget2 : jget [ 'a', 'l', 'g']
          (buildHeader .HS256 (refreshSignOptions rSpec)) =
          some (JVal.str (algStr .HS256)) := halgget
      simp [hsec0, exc_bind_ok, exc_pure, halgget2, nodeAlgOf_algStr,
        createSignature_algStr, timingSafeEqualStr, hvtc, hvsc]
    have hvN : verify R.jwt wallSecs newToken R.refreshSecret {} =
        .ok (refreshBuiltPayload wallSecs userId uv rSecs) := by
      rw [← hTok]
      exact hverify
    unfold validateRefreshToken
    rw [if_neg hsec0, hvN]
    dsimp only
    have hty2 : jget [ 't', 'y', 'p', 'e']
        (refreshBuiltPayload wallSecs userId uv rSecs) =
        some (JVal.str [ 'r', 'e', 'f', 'r', 'e', 's', 'h']) := rfl
    rw [if_neg (show ¬ jget (("type").toList)
        (refreshBuiltPayload wallSecs userId uv rSecs) ≠
        some (.str (("refresh").toList)) by
      simp [hty2])]
    have hdays : 1 ≤ (rSecs.toNat + 86399) / 86400 := by omega
    have hgt : strGtB (toISOString
        (nowDT.addDays ((rSecs.toNat + 86399) / 86400)))
        (sqliteNowStr nowDT) = true := by
      have hlt := addDays_dateLt hnv _ hdays
      have hv2 := addDays_valid hnv ((rSecs.toNat + 86399) / 86400)
      unfold DateTime.valid at hnv hv2
      have hgoal : strLtB (sqliteNowStr nowDT)
          (toISOString (nowDT.addDays ((rSecs.toNat + 86399) / 86400))) = true := by
        unfold sqliteNowStr toISOString
        simp only [List.append_assoc]
        refine dateStr_lt_append hlt hny hay ?_ ?_ ?_ ?_ _ _
        · omega
        · have := daysInMonth_le31
            (nowDT.addDays ((rSecs.toNat + 86399) / 86400)).year
            (nowDT.addDays ((rSecs.toNat + 86399) / 86400)).month
          omega
        · have := daysInMonth_le31 nowDT.year nowDT.month
          omega
        · have := daysInMonth_le31
            (nowDT.addDays ((rSecs.toNat + 86399) / 86400)).year
            (nowDT.addDays ((rSecs.toNat + 86399) / 86400)).month
          omega
      exact hgoal
    have hfind2 : (storeRefreshToken R nowDT
        (revokeRefreshToken R store oldToken).1 userId newToken
        ((rSecs.toNat + 86399) / 86400)).find?
        (validRowFor (hashRefreshToken R newToken) nowDT) =
        some ⟨userId, hashRefreshToken R newToken,
              toISOString (nowDT.addDays ((rSecs.toNat + 86399) / 86400)),
              toISOString nowDT⟩ := by
      unfold storeRefreshToken
      rw [find?_append_none]
      · simp [List.find?, validRowFor, hgt]
      · intro rec hrec
        have h7 := hrec
        simp only [revokeRefreshToken, List.mem_filter] at h7
        have h8 := huniq rec h7.1
        simp [validRowFor, hashRefreshToken, h8]
    rw [hfind2]
    dsimp only
    rw [if_pos (jget_userId_refreshBuilt wallSecs userId uv rSecs)]
    rw [jget_username_refreshBuilt]


/-- Concrete instance of the amended rotation claim: rotating `c5bOldTok`
(issued at second −10) at wall-clock 0 re-issues `c5bNewTok`; in the rotated
store the old token no longer validates and the new token yields
`{userId: 1, username: "u"}`. -/
theorem c5_rotation_invalidation_witness :
    validateRefreshToken c5bR 0 c5NowDT c5bStore2 c5bOldTok = none ∧
    validateRefreshToken c5bR 0 c5NowDT c5bStore2 c5bNewTok =
      some (1, some (.str (("u").toList))) :=
  c5_rotation_invalidation_amended c5bR 0 c5NowDT c5bStore c5bStore2
    c5bOldTok c5bNewTok 1 (("2880s").toList) (("1d").toList)
    (.str (("u").toList)) 86400
    (by decide) (by decide) (by decide) (by decide)
    (by decide) (by decide) (by decide) (by decide)
    (by decide) (by decide) (by decide) (by decide) (by decide)
